import Mathlib

/-!
Shallow embedding of the `ui-bug-scanner` crawl / scheduling / clustering
components, together with theorems settling the frozen claims about them.

Modelling conventions:
* JavaScript strings are Lean `String`s; character-level regex replacements
  from the source are implemented as explicit scanners over `List Char`.
* `crypto.createHash('md5')` is abstracted as a parameter `hash : String → String`;
  every theorem quantifies over it (md5 is deterministic, which is all the
  code relies on for signature equality).
* The WHATWG `new URL` constructor is modelled by `parseUrl`, covering
  absolute `scheme://host[:port]/path?query#hash` URLs (userinfo, percent
  encoding and punycode normalisation are outside the model's scope);
  a parse failure models the constructor throwing.
* `new RegExp(pattern)` for user-supplied deny patterns is abstracted as a
  parameter `compileRegex : String → Option (String → Bool)`; `none` models
  the constructor throwing (invalid pattern).
* Network and browser I/O are oracles: a sitemap fetch is
  `net : String → Option HttpResponse` (`none` = connection error/timeout),
  a BFS page visit is `links : String → Option (List String)`
  (`none` = navigation/extraction threw), and a scan job's browser work is
  `step : PageScanJob → List Finding × Option String` (the findings pushed
  before a possible exception, and the exception message if one was thrown).
* Wall-clock values (timestamps, durations) are not modelled.
-/

/-! ## Character and string utilities -/

/-- ASCII word characters of the regex class `[a-zA-Z0-9_-]`. -/
def isWordChar (c : Char) : Bool :=
  c.isAlphanum || c = '_' || c = '-'

/-- Hex digits of the case-insensitive regex class `[a-f0-9]` (flag `i`). -/
def isHexChar (c : Char) : Bool :=
  c.isDigit || ('a' ≤ c && c ≤ 'f') || ('A' ≤ c && c ≤ 'F')

/-- Does `pat` occur as a contiguous substring of `l`? Models JS
`String.prototype.includes`. -/
def listContains (pat : List Char) : List Char → Bool
  | [] => pat.isEmpty
  | c :: cs => (pat.isPrefixOf (c :: cs)) || listContains pat cs

/-- JS `url.includes(pattern)`. -/
def strContains (s pat : String) : Bool :=
  listContains pat.toList s.toList

/-- Lower-case a string (models JS `toLowerCase` on ASCII input). -/
def strLower (s : String) : String :=
  String.mk (s.toList.map Char.toLower)

/-- Case-insensitive prefix test. -/
def lowerPrefixOf (pat : List Char) (l : List Char) : Bool :=
  pat.isPrefixOf (l.map Char.toLower)

/-- JS `String.prototype.endsWith` (kernel-computable, unlike
`String.endsWith`). -/
def strEndsWith (s post : String) : Bool :=
  post.toList.isSuffixOf s.toList

/-- JS `String.prototype.startsWith` (kernel-computable, unlike
`String.startsWith`). -/
def strStartsWith (s pre : String) : Bool :=
  pre.toList.isPrefixOf s.toList

/-- Drop the last `n` characters (kernel-computable, unlike
`String.dropRight`). -/
def strDropRight (s : String) (n : Nat) : String :=
  String.mk (s.toList.take (s.toList.length - n))

/-- JS `String.prototype.trim`: strip leading and trailing whitespace
(kernel-computable, unlike `String.trim`). -/
def jsTrim (s : String) : String :=
  String.mk (((s.toList.dropWhile Char.isWhitespace).reverse.dropWhile
    Char.isWhitespace).reverse)

/-- Insert `x` into a sorted list, before the first element `y` with
`le x y` — the stable position for an element arriving after all of `l`'s
elements have been placed. -/
def insertSorted (le : α → α → Bool) (x : α) : List α → List α
  | [] => [x]
  | y :: ys => if le x y then x :: y :: ys else y :: insertSorted le x ys

/-- Stable sort by a boolean `≤` test — the semantics of JS
`Array.prototype.sort` with a consistent comparator (`le a b` standing
for `comparator(a, b) <= 0`).  Implemented as insertion sort, which is
stable and kernel-computable. -/
def stableSort (le : α → α → Bool) : List α → List α
  | [] => []
  | x :: xs => insertSorted le x (stableSort le xs)

/-- Generic global replacement of the regex shape `openTok \d+ closeTok`
(a literal opener, one or more digits, a literal one-character closer) by
`repl`, scanning left to right without overlap — the semantics of JS
`String.prototype.replace` with a global regex.  Fuel is the input length;
each step consumes at least one character, so it never runs out. -/
def replaceDelimNumAux (openTok : List Char) (closeTok : Char) (repl : List Char) :
    Nat → List Char → List Char
  | 0, l => l
  | _ + 1, [] => []
  | fuel + 1, c :: cs =>
    if openTok.isPrefixOf (c :: cs) then
      let rest := (c :: cs).drop openTok.length
      let ds := rest.takeWhile Char.isDigit
      let rest2 := rest.dropWhile Char.isDigit
      if ds.isEmpty then
        c :: replaceDelimNumAux openTok closeTok repl fuel cs
      else
        match rest2 with
        | r :: rs =>
          if r = closeTok then
            repl ++ replaceDelimNumAux openTok closeTok repl fuel rs
          else
            c :: replaceDelimNumAux openTok closeTok repl fuel cs
        | [] => c :: replaceDelimNumAux openTok closeTok repl fuel cs
    else
      c :: replaceDelimNumAux openTok closeTok repl fuel cs

def replaceDelimNum (openTok : String) (closeTok : Char) (repl : String) (s : String) : String :=
  String.mk (replaceDelimNumAux openTok.toList closeTok repl.toList s.length s.toList)

/-- Global replacement of the regex `#[a-zA-Z0-9_-]*\d+[a-zA-Z0-9_-]*` by
`repl`: a `#` followed by a maximal word-character run that contains at
least one digit (greedy with backtracking collapses to exactly that). -/
def replaceDynIdAux (repl : List Char) : Nat → List Char → List Char
  | 0, l => l
  | _ + 1, [] => []
  | fuel + 1, c :: cs =>
    if c = '#' then
      let run := cs.takeWhile isWordChar
      if run.any Char.isDigit then
        repl ++ replaceDynIdAux repl fuel (cs.dropWhile isWordChar)
      else
        c :: replaceDynIdAux repl fuel cs
    else
      c :: replaceDynIdAux repl fuel cs

def replaceDynId (repl : String) (s : String) : String :=
  String.mk (replaceDynIdAux repl.toList s.length s.toList)

/-- Global replacement of `\/\d+` by `/:id`: a slash followed by one or
more digits. -/
def replacePathNumAux : Nat → List Char → List Char
  | 0, l => l
  | _ + 1, [] => []
  | fuel + 1, c :: cs =>
    if c = '/' && (cs.headD ' ').isDigit then
      ('/' :: ':' :: 'i' :: 'd' :: []) ++ replacePathNumAux fuel (cs.dropWhile Char.isDigit)
    else
      c :: replacePathNumAux fuel cs

def replacePathNum (s : String) : String :=
  String.mk (replacePathNumAux s.length s.toList)

/-- Global replacement of `\/[a-f0-9]{8,}` (case-insensitive) by `/:hash`:
a slash followed by a maximal hex run of length at least 8. -/
def replacePathHashAux : Nat → List Char → List Char
  | 0, l => l
  | _ + 1, [] => []
  | fuel + 1, c :: cs =>
    if c = '/' && 8 ≤ (cs.takeWhile isHexChar).length then
      ('/' :: ':' :: 'h' :: 'a' :: 's' :: 'h' :: []) ++
        replacePathHashAux fuel (cs.dropWhile isHexChar)
    else
      c :: replacePathHashAux fuel cs

def replacePathHash (s : String) : String :=
  String.mk (replacePathHashAux s.length s.toList)

/-! ## URL model

Models the subset of the WHATWG `URL` class the scanner relies on:
scheme, host (lower-cased, optionally with port), pathname, query.
`none` models the constructor throwing on input it cannot parse. -/

structure UrlParts where
  scheme : String
  hostPort : String
  hostname : String
  pathname : String
  searchRaw : String
  deriving DecidableEq, Repr

def UrlParts.origin (u : UrlParts) : String :=
  u.scheme ++ "://" ++ u.hostPort

/-- Split `l` at the first occurrence of `c`; the delimiter is dropped. -/
def splitAtChar (c : Char) (l : List Char) : List Char × List Char :=
  (l.takeWhile (· ≠ c), (l.dropWhile (· ≠ c)).drop 1)

def parseUrl (url : String) : Option UrlParts :=
  let cs := url.toList
  let scheme := cs.takeWhile (· ≠ ':')
  let rest := cs.drop (scheme.length + 3)
  if scheme.isEmpty then none
  else if ¬ (List.isPrefixOf (':' :: '/' :: '/' :: []) (cs.drop scheme.length)) then none
  else
    let hostPort := rest.takeWhile (fun c => c ≠ '/' && c ≠ '?' && c ≠ '#')
    if hostPort.isEmpty then none
    else
      let afterHost := rest.drop hostPort.length
      let pathRaw := afterHost.takeWhile (fun c => c ≠ '?' && c ≠ '#')
      let afterPath := afterHost.drop pathRaw.length
      let searchRaw :=
        match afterPath with
        | '?' :: qs => qs.takeWhile (· ≠ '#')
        | _ => []
      let hostLower := hostPort.map Char.toLower
      some
        { scheme := String.mk (scheme.map Char.toLower)
          hostPort := String.mk hostLower
          hostname := String.mk (hostLower.takeWhile (· ≠ ':'))
          pathname := if pathRaw.isEmpty then "/" else String.mk pathRaw
          searchRaw := String.mk searchRaw }

/-- Query string as a list of `key=value` pairs, in order.  Models the
`URLSearchParams` view used by `normalizeUrl` (empty `&&` segments are
dropped; percent decoding is outside the model's scope). -/
def searchPairs (u : UrlParts) : List (String × String) :=
  (u.searchRaw.toList.splitOn '&').filterMap fun part =>
    if part.isEmpty then none
    else
      let (k, v) := splitAtChar '=' part
      some (String.mk k, String.mk v)

def serializePairs (ps : List (String × String)) : String :=
  if ps.isEmpty then ""
  else "?" ++ String.intercalate "&" (ps.map fun p => p.1 ++ "=" ++ p.2)

/-! ## Data model (src/scripts/types.ts)

Fields not consumed by the crawl, scheduling or clustering code under
verification (stepsToReproduce, wcag, suggestedFix, …) are omitted. -/

inductive Severity
  | critical | high | medium | low | info
  deriving DecidableEq, Repr

inductive FindingCategory
  | accessibility | usability | spec
  deriving DecidableEq, Repr

inductive Confidence
  | certain | likely | needs_review
  deriving DecidableEq, Repr

inductive ViewportPreset
  | desktop | tablet | mobile
  deriving DecidableEq, Repr

/-- The `ViewportPreset` string value (`'desktop' | 'tablet' | 'mobile'`). -/
def ViewportPreset.str : ViewportPreset → String
  | .desktop => "desktop"
  | .tablet => "tablet"
  | .mobile => "mobile"

structure ViewportConfig where
  name : ViewportPreset
  width : Nat
  height : Nat
  deriving DecidableEq, Repr

def VIEWPORT_PRESETS (p : ViewportPreset) : ViewportConfig :=
  match p with
  | .desktop => { name := .desktop, width := 1920, height := 1080 }
  | .tablet => { name := .tablet, width := 768, height := 1024 }
  | .mobile => { name := .mobile, width := 375, height := 812 }

structure FindingEvidence where
  selectors : List String
  domSnippet : Option String := none
  screenshotPath : Option String := none
  deriving DecidableEq, Repr

structure Finding where
  id : String
  category : FindingCategory
  severity : Severity
  confidence : Confidence
  pageUrl : String
  viewport : ViewportPreset
  title : String := ""
  description : String := ""
  evidence : FindingEvidence
  tool : Option String := none
  ruleId : Option String := none
  deriving DecidableEq, Repr

instance : Inhabited Finding :=
  ⟨{ id := "", category := .accessibility, severity := .info, confidence := .certain,
     pageUrl := "", viewport := .desktop, evidence := { selectors := [] } }⟩

/-- `ClusteredFinding extends Finding` with the clustering annotations. -/
structure ClusteredFinding where
  toFinding : Finding
  affectedPages : List String
  occurrenceCount : Nat
  representativeUrl : String
  deriving DecidableEq, Repr

/-! ## Finding deduplication and clustering (src/scripts/utils/dedup.ts) -/

/-- `finding.ruleId || finding.tool || 'unknown'` (JS `||`: the empty string
is falsy, as is a missing field). -/
def ruleKey (f : Finding) : String :=
  match f.ruleId with
  | some r => if r = "" then
      (match f.tool with
       | some t => if t = "" then "unknown" else t
       | none => "unknown")
    else r
  | none =>
      match f.tool with
      | some t => if t = "" then "unknown" else t
      | none => "unknown"

/-- The selector-normalisation pipeline of `generateSignature`:
strip `:nth-child(\d+)` and `:nth-of-type(\d+)`, replace numeric-bearing
ids by `[dynamic-id]`, collapse `[\d+]` array indices, and trim. -/
def normalizeSelectorPipeline (s : String) : String :=
  (replaceDelimNum "[" ']' "[n]"
    (replaceDynId "[dynamic-id]"
      (replaceDelimNum ":nth-of-type(" ')' ""
        (replaceDelimNum ":nth-child(" ')' "" s)))) |> jsTrim

/-- `finding.evidence.selectors[0]?.replace(...)....trim() || 'unknown'`:
a missing first selector, or one that normalises to the empty string,
falls back to `'unknown'`. -/
def normalizedSelector (f : Finding) : String :=
  match f.evidence.selectors.head? with
  | none => "unknown"
  | some s =>
    let t := normalizeSelectorPipeline s
    if t = "" then "unknown" else t

/-- `extractUrlPattern`: hostname plus pathname with numeric segments
replaced by `/:id` and long hex segments by `/:hash`; an unparseable URL
is returned unchanged (the `catch` branch). -/
def extractUrlPattern (url : String) : String :=
  match parseUrl url with
  | none => url
  | some parsed => parsed.hostname ++ replacePathHash (replacePathNum parsed.pathname)

/-- The string that `generateSignature` feeds to md5: the four components
joined by `'|'`. -/
def signatureBase (f : Finding) : String :=
  ruleKey f ++ "|" ++ normalizedSelector f ++ "|" ++ f.viewport.str ++ "|" ++
    extractUrlPattern f.pageUrl

/-- `generateSignature`, with md5 abstracted as `hash`. -/
def generateSignature (hash : String → String) (f : Finding) : String :=
  hash (signatureBase f)

/-- Insertion into the signature → group map.  Models
`clusters.get(sig) || []; existing.push(finding); clusters.set(sig, existing)`
on a JS `Map`, whose iteration order is key-insertion order. -/
def insertGroup (sig : String) (f : Finding) :
    List (String × List Finding) → List (String × List Finding)
  | [] => [(sig, [f])]
  | (k, g) :: rest =>
    if k = sig then (k, g ++ [f]) :: rest else (k, g) :: insertGroup sig f rest

/-- The grouping loop of `deduplicateFindings`. -/
def groupsOf (hash : String → String) (findings : List Finding) :
    List (String × List Finding) :=
  findings.foldl (fun m f => insertGroup (generateSignature hash f) f m) []

/-- First-occurrence deduplication — `[...new Set(xs)]` (JS `Set` iterates
in insertion order).  Fuel is the input length; filtering never lengthens
the list, so it never runs out. -/
def dedupKeepFirstAux : Nat → List String → List String
  | 0, _ => []
  | _ + 1, [] => []
  | fuel + 1, x :: xs => x :: dedupKeepFirstAux fuel (xs.filter (· ≠ x))

def dedupKeepFirst (l : List String) : List String :=
  dedupKeepFirstAux l.length l

/-- One cluster from a signature group.  Groups built by `insertGroup` are
never empty, matching the unchecked `group[0]` in the source. -/
def mkCluster (group : List Finding) : ClusteredFinding :=
  let representative := group.headI
  { toFinding := { representative with id := "clustered-" ++ representative.id }
    affectedPages := dedupKeepFirst (group.map (·.pageUrl))
    occurrenceCount := group.length
    representativeUrl := representative.pageUrl }

def severityOrder : Severity → Nat
  | .critical => 0
  | .high => 1
  | .medium => 2
  | .low => 3
  | .info => 4

/-- The sort comparator of `deduplicateFindings` as a `≤` test
(comparator result `≤ 0`); JS `Array.prototype.sort` is stable, modelled
by `stableSort`. -/
def clusterLe (a b : ClusteredFinding) : Bool :=
  if severityOrder a.toFinding.severity = severityOrder b.toFinding.severity then
    b.occurrenceCount ≤ a.occurrenceCount
  else
    severityOrder a.toFinding.severity < severityOrder b.toFinding.severity

/-- `deduplicateFindings`: group by signature, make one clustered finding
per group, sort by severity rank then occurrence count descending. -/
def deduplicateFindings (hash : String → String) (findings : List Finding) :
    List ClusteredFinding :=
  stableSort clusterLe ((groupsOf hash findings).map fun p => mkCluster p.2)

/-! ## BFS crawler (src/scripts/crawlers/bfs.ts) -/

structure BfsCrawlerOptions where
  maxPages : Nat
  maxDepth : Nat
  allowDomains : List String := []
  denyPatterns : List String := []
  respectRobotsTxt : Bool := true
  sameDomainOnly : Bool := true
  deriving Repr

structure CrawlQueueItem where
  url : String
  depth : Nat
  referrer : Option String := none
  deriving DecidableEq, Repr

/-- The tracking query parameters stripped by `normalizeUrl`. -/
def trackingParams : List String :=
  ["utm_source", "utm_medium", "utm_campaign", "ref", "fbclid"]

/-- `BfsCrawler.normalizeUrl`: drop a trailing slash (except on `/`),
delete tracking parameters, sort the remaining parameters by key
(`searchParams.sort()` is stable), and reserialize; an unparseable URL is
returned unchanged. -/
def normalizeUrl (url : String) : String :=
  match parseUrl url with
  | none => url
  | some parsed =>
    let path :=
      if strEndsWith parsed.pathname "/" && 1 < parsed.pathname.length then
        strDropRight parsed.pathname 1
      else parsed.pathname
    let pairs := (searchPairs parsed).filter fun p => p.1 ∉ trackingParams
    let pairs := stableSort (fun a b => a.1 ≤ b.1) pairs
    parsed.origin ++ path ++ serializePairs pairs

/-- Remove the first case-insensitive occurrence of `pat` (given in lower
case) from a string — JS `String.prototype.replace` with a non-global
pattern and empty replacement. -/
def removeFirstCIAux (pat : List Char) : Nat → List Char → List Char
  | 0, l => l
  | _ + 1, [] => []
  | fuel + 1, c :: cs =>
    if lowerPrefixOf pat (c :: cs) then (c :: cs).drop pat.length
    else c :: removeFirstCIAux pat fuel cs

def removeFirstCI (pat s : String) : String :=
  String.mk (removeFirstCIAux pat.toList s.length s.toList)

/-- The body of `BfsCrawler.fetchRobotsTxt`: parse a fetched robots.txt
body into the disallowed-path list, tracking whether the current
user-agent group applies (`*` or an agent containing `bot`). -/
def parseRobotsTxt (text : String) : List String :=
  let lines := (text.toList.splitOn '\n').map String.mk
  (lines.foldl
    (fun (st : Bool × List String) line =>
      let appliesToUs := st.1
      let trimmed := strLower (jsTrim line)
      let appliesToUs :=
        if strStartsWith trimmed "user-agent:" then
          let agent := jsTrim (removeFirstCI "user-agent:" trimmed)
          agent == "*" || strContains agent "bot"
        else appliesToUs
      let acc :=
        if appliesToUs && strStartsWith trimmed "disallow:" then
          let path := jsTrim (removeFirstCI "disallow:" line)
          if path ≠ "" then st.2 ++ [path] else st.2
        else st.2
      (appliesToUs, acc))
    (false, [])).2

/-- `BfsCrawler.isDisallowed`: robots prefix test against the pathname;
a trailing `*` on the stored path is stripped before the prefix test. -/
def isDisallowed (disallowedPaths : List String) (url : String) : Bool :=
  match parseUrl url with
  | none => false
  | some parsed =>
    disallowedPaths.any fun d =>
      if strEndsWith d "*" then strStartsWith parsed.pathname (strDropRight d 1)
      else strStartsWith parsed.pathname d

/-- The deny-pattern test shared by `isAllowed` and `extractLinks`:
compile the pattern as a regex and test it, degrading to a substring test
when the regex constructor throws. -/
def denyMatch (compileRegex : String → Option (String → Bool)) (pat url : String) : Bool :=
  match compileRegex pat with
  | some test => test url
  | none => strContains url pat

/-- `BfsCrawler.isAllowed` (the dequeue-time check).  Note the source's
early returns: when `allowDomains` is non-empty the deny patterns are
never consulted. -/
def isAllowed (opts : BfsCrawlerOptions) (compileRegex : String → Option (String → Bool))
    (baseDomain url : String) : Bool :=
  match parseUrl url with
  | none => false
  | some parsed =>
    if opts.sameDomainOnly && parsed.hostname != baseDomain then false
    else if !opts.allowDomains.isEmpty then
      opts.allowDomains.any fun d =>
        parsed.hostname == d || strEndsWith parsed.hostname ("." ++ d)
    else if !opts.denyPatterns.isEmpty then
      !(opts.denyPatterns.any fun pat => denyMatch compileRegex pat url)
    else true

/-- The link filter at the end of `BfsCrawler.extractLinks` (applied to
the URLs already resolved inside the page): same-domain, allow-domain and
deny-pattern checks, all three applied. -/
def extractLinksFilter (opts : BfsCrawlerOptions)
    (compileRegex : String → Option (String → Bool))
    (baseDomain : String) (links : List String) : List String :=
  links.filter fun url =>
    match parseUrl url with
    | none => false
    | some parsed =>
      if opts.sameDomainOnly && parsed.hostname != baseDomain then false
      else if !opts.allowDomains.isEmpty &&
          !(opts.allowDomains.any fun d =>
              parsed.hostname == d || strEndsWith parsed.hostname ("." ++ d)) then false
      else if !opts.denyPatterns.isEmpty &&
          (opts.denyPatterns.any fun pat => denyMatch compileRegex pat url) then false
      else true

structure BfsState where
  queue : List CrawlQueueItem
  visited : List String
  discovered : List (String × Nat)
  enqueuedLog : List String
  deriving Repr

/-- The `while` loop of `BfsCrawler.crawl`.  `linksOf` is the browser
oracle for `page.goto` + `extractLinks`' in-page evaluation (`none` models
the caught per-page exception).  `discovered` records each URL with the
depth of the queue item that discovered it; `enqueuedLog` records the
normalized URL of every item pushed onto the queue.  Fuel bounds the
number of iterations; exhaustion returns the state reached so far. -/
def bfsLoop (opts : BfsCrawlerOptions) (compileRegex : String → Option (String → Bool))
    (linksOf : String → Option (List String)) (startDomain : String)
    (disallowedPaths : List String) : Nat → BfsState → BfsState
  | 0, st => st
  | fuel + 1, st =>
    match st.queue with
    | [] => st
    | item :: rest =>
      if opts.maxPages ≤ st.discovered.length then st
      else
        let norm := normalizeUrl item.url
        if norm ∈ st.visited then
          bfsLoop opts compileRegex linksOf startDomain disallowedPaths fuel
            { st with queue := rest }
        else if opts.maxDepth < item.depth then
          bfsLoop opts compileRegex linksOf startDomain disallowedPaths fuel
            { st with queue := rest }
        else if isDisallowed disallowedPaths item.url then
          bfsLoop opts compileRegex linksOf startDomain disallowedPaths fuel
            { st with queue := rest }
        else if !(isAllowed opts compileRegex startDomain item.url) then
          bfsLoop opts compileRegex linksOf startDomain disallowedPaths fuel
            { st with queue := rest }
        else
          let st1 : BfsState :=
            { queue := rest
              visited := st.visited ++ [norm]
              discovered := st.discovered ++ [(item.url, item.depth)]
              enqueuedLog := st.enqueuedLog }
          if opts.maxPages ≤ st1.discovered.length then st1
          else if opts.maxDepth ≤ item.depth then
            bfsLoop opts compileRegex linksOf startDomain disallowedPaths fuel st1
          else
            match linksOf item.url with
            | none =>
              bfsLoop opts compileRegex linksOf startDomain disallowedPaths fuel st1
            | some rawLinks =>
              let keep := (extractLinksFilter opts compileRegex startDomain rawLinks).filter
                fun l => normalizeUrl l ∉ st1.visited
              bfsLoop opts compileRegex linksOf startDomain disallowedPaths fuel
                { st1 with
                  queue := st1.queue ++
                    keep.map fun l => { url := l, depth := item.depth + 1, referrer := some item.url }
                  enqueuedLog := st1.enqueuedLog ++ keep.map normalizeUrl }

/-- `BfsCrawler.crawl` from a fresh crawler instance: parse the seed
(`new URL(startUrl)` is outside any try — `none` models the rejection on
an unparseable seed), fetch robots.txt (`robotsNet` returns the body of a
successful response, `none` otherwise; errors are swallowed), then run
the loop.  Returns the final crawl state. -/
def BfsCrawler.crawlState (opts : BfsCrawlerOptions)
    (compileRegex : String → Option (String → Bool))
    (linksOf : String → Option (List String)) (robotsNet : String → Option String)
    (fuel : Nat) (startUrl : String) : Option BfsState :=
  match parseUrl startUrl with
  | none => none
  | some startParsed =>
    let disallowedPaths :=
      if opts.respectRobotsTxt then
        match robotsNet (startParsed.origin ++ "/robots.txt") with
        | some body => parseRobotsTxt body
        | none => []
      else []
    some (bfsLoop opts compileRegex linksOf startParsed.hostname disallowedPaths fuel
      { queue := [{ url := startUrl, depth := 0 }]
        visited := []
        discovered := []
        enqueuedLog := [normalizeUrl startUrl] })

/-- The URL list `BfsCrawler.crawl` resolves with (paired here with the
discovery depth of each URL). -/
def BfsCrawler.crawl (opts : BfsCrawlerOptions)
    (compileRegex : String → Option (String → Bool))
    (linksOf : String → Option (List String)) (robotsNet : String → Option String)
    (fuel : Nat) (startUrl : String) : Option (List (String × Nat)) :=
  (BfsCrawler.crawlState opts compileRegex linksOf robotsNet fuel startUrl).map (·.discovered)

/-! ## Sitemap crawler (the `SitemapCrawler` module) -/

structure SitemapOptions where
  maxUrls : Nat := 100
  allowDomains : List String := []
  denyPatterns : List String := []
  includeImages : Bool := false
  deriving Repr

structure HttpResponse where
  status : Nat
  location : Option String := none
  body : String := ""
  deriving DecidableEq, Repr

/-- `SitemapCrawler.fetchUrl` over a network oracle (`none` models a
connection error or the 10s timeout).  A 301/302 with a `Location` header
is followed by a recursive call — there is no bound on the number of hops
other than the fuel; a 301/302 without `Location` falls through to the
non-200 rejection. -/
def fetchUrl (net : String → Option HttpResponse) : Nat → String → Option String
  | 0, _ => none
  | fuel + 1, url =>
    match net url with
    | none => none
    | some resp =>
      match (if resp.status = 301 || resp.status = 302 then resp.location else none) with
      | some loc => fetchUrl net fuel loc
      | none => if resp.status = 200 then some resp.body else none

structure SitemapUrl where
  loc : String
  lastmod : Option String := none
  changefreq : Option String := none
  priority : Option String := none
  deriving DecidableEq, Repr

/-- One `<url>` entry as produced by xml2js: `loc[0]` (if any) and the
optional metadata fields. -/
structure XmlUrlEntry where
  loc : Option String := none
  lastmod : Option String := none
  changefreq : Option String := none
  priority : Option String := none
  deriving DecidableEq, Repr

/-- The xml2js parse result, restricted to what `parseSitemap` reads:
an optional `<sitemapindex>` (each child sitemap's `loc[0]`) and an
optional `<urlset>`. -/
structure XmlDoc where
  sitemapindex : Option (List (Option String)) := none
  urlset : Option (List XmlUrlEntry) := none
  deriving Repr

/-- The allow-domain test of `filterUrls`: the URL's hostname equals one
of the allowed domains or is a subdomain of one (an unparseable URL is
rejected — the `catch` branch). -/
def allowDomainOk (allowDomains : List String) (url : String) : Bool :=
  match parseUrl url with
  | none => false
  | some parsed =>
    allowDomains.any fun d => parsed.hostname == d || strEndsWith parsed.hostname ("." ++ d)

/-- The deny-pattern test of `filterUrls`: some pattern matches (regex,
degrading to substring when the pattern is invalid). -/
def denyPatternsHit (compileRegex : String → Option (String → Bool))
    (denyPatterns : List String) (url : String) : Bool :=
  denyPatterns.any fun pat => denyMatch compileRegex pat url

/-- `SitemapCrawler.filterUrls`: allow-domain filter, deny-pattern filter
(regex, degrading to substring on an invalid pattern), truncation to
`maxUrls` (skipped when `maxUrls` is `0` — JS falsiness of
`this.options.maxUrls &&`), then `[...new Set(...)]` deduplication. -/
def filterUrls (opts : SitemapOptions) (compileRegex : String → Option (String → Bool))
    (urls : List SitemapUrl) : List String :=
  let f0 := urls.map (·.loc)
  let f1 :=
    if !opts.allowDomains.isEmpty then
      f0.filter fun url => allowDomainOk opts.allowDomains url
    else f0
  let f2 :=
    if !opts.denyPatterns.isEmpty then
      f1.filter fun url => !(denyPatternsHit compileRegex opts.denyPatterns url)
    else f1
  let f3 := if opts.maxUrls ≠ 0 && opts.maxUrls < f2.length then f2.take opts.maxUrls else f2
  dedupKeepFirst f3

/-- The sitemap-index cap: `this.options.maxUrls || 100` (JS falsiness:
`maxUrls = 0` falls back to `100`). -/
def sitemapCap (opts : SitemapOptions) : Nat :=
  if opts.maxUrls = 0 then 100 else opts.maxUrls

/-- The `for (const sitemap of sitemaps)` loop inside `parseSitemap`:
recurse into each child sitemap (via `crawlChild`, the crawl at the
remaining fuel), and once the accumulated count would reach
`maxUrls || 100`, take only what fits and `break`. -/
def sitemapIndexLoop (opts : SitemapOptions) (crawlChild : String → List String) :
    List (Option String) → List SitemapUrl → List SitemapUrl
  | [], acc => acc
  | e :: rest, acc =>
    match e with
    | none => sitemapIndexLoop opts crawlChild rest acc
    | some loc =>
      if loc = "" then sitemapIndexLoop opts crawlChild rest acc
      else
        let childUrls := crawlChild loc
        if sitemapCap opts ≤ acc.length + childUrls.length then
          acc ++ (childUrls.take (sitemapCap opts - acc.length)).map fun l => { loc := l }
        else
          sitemapIndexLoop opts crawlChild rest (acc ++ childUrls.map fun l => { loc := l })

/-- `SitemapCrawler.parseSitemap`: resolve a sitemap index recursively
(stopping early at the cap), then append the plain `<urlset>` entries
(skipping missing or empty `loc`s). -/
def parseSitemapDoc (opts : SitemapOptions) (parseXml : String → Option XmlDoc)
    (crawlChild : String → List String) (content : String) : List SitemapUrl :=
  match parseXml content with
  | none => []
  | some doc =>
    let fromIndex :=
      match doc.sitemapindex with
      | none => []
      | some sitemaps => sitemapIndexLoop opts crawlChild sitemaps []
    let fromUrlset :=
      match doc.urlset with
      | none => []
      | some entries =>
        entries.filterMap fun e =>
          match e.loc with
          | some l =>
            if l = "" then none
            else some { loc := l, lastmod := e.lastmod, changefreq := e.changefreq,
                        priority := e.priority }
          | none => none
    fromIndex ++ fromUrlset

/-- `SitemapCrawler.crawl`: fetch, parse, filter; every failure is caught
and yields `[]`.  `parseXml` abstracts `xml2js.parseStringPromise`
(`none` models a parse error); recursion into child sitemaps runs at one
less fuel. -/
def sitemapCrawl (opts : SitemapOptions) (net : String → Option HttpResponse)
    (parseXml : String → Option XmlDoc) (compileRegex : String → Option (String → Bool)) :
    Nat → String → List String
  | 0, _ => []
  | fuel + 1, url =>
    match fetchUrl net (fuel + 1) url with
    | none => []
    | some content =>
      filterUrls opts compileRegex
        (parseSitemapDoc opts parseXml (sitemapCrawl opts net parseXml compileRegex fuel) content)

/-- The backtracking semantics of `/Sitemap:\s*(.+)/i` at one position:
greedy `\s*` then at least one non-line-terminator character, captured up
to the end of the line. -/
def sitemapDirectiveAt (tail : List Char) : Option (List Char) :=
  let ws := tail.takeWhile Char.isWhitespace
  let rest := tail.drop ws.length
  if !rest.isEmpty then
    some (rest.takeWhile fun c => c ≠ '\n' && c ≠ '\r')
  else
    match (ws.filter fun c => c ≠ '\n' && c ≠ '\r').getLast? with
    | some c => some [c]
    | none => none

/-- `robotsContent.match(/Sitemap:\s*(.+)/i)`: the capture of the first
position where the whole pattern matches. -/
def findSitemapDirectiveAux : Nat → List Char → Option String
  | 0, _ => none
  | _ + 1, [] => none
  | fuel + 1, c :: cs =>
    if lowerPrefixOf "sitemap:".toList (c :: cs) then
      match sitemapDirectiveAt ((c :: cs).drop 8) with
      | some captured => some (String.mk captured)
      | none => findSitemapDirectiveAux fuel cs
    else findSitemapDirectiveAux fuel cs

def findSitemapDirective (content : String) : Option String :=
  findSitemapDirectiveAux content.length content.toList

def commonLocations : List String :=
  ["/sitemap.xml", "/sitemap_index.xml", "/sitemap/sitemap.xml", "/sitemaps/sitemap.xml"]

/-- The `for (const location of commonLocations)` loop of `discover`:
first non-empty crawl result wins. -/
def discoverLoop (opts : SitemapOptions) (net : String → Option HttpResponse)
    (parseXml : String → Option XmlDoc) (compileRegex : String → Option (String → Bool))
    (fuel : Nat) (origin : String) : List String → Option (List String)
  | [] => none
  | loc :: rest =>
    let urls := sitemapCrawl opts net parseXml compileRegex fuel (origin ++ loc)
    if 0 < urls.length then some urls
    else discoverLoop opts net parseXml compileRegex fuel origin rest

/-- `SitemapCrawler.discover`.  `new URL(baseUrl)` is outside any try, so
an unparseable base models as `none` (the promise rejecting).  Note the
robots branch returns the declared sitemap's crawl result directly, even
when that result is empty. -/
def SitemapCrawler.discover (opts : SitemapOptions) (net : String → Option HttpResponse)
    (parseXml : String → Option XmlDoc) (compileRegex : String → Option (String → Bool))
    (fuel : Nat) (baseUrl : String) : Option (List String) :=
  match parseUrl baseUrl with
  | none => none
  | some parsedBase =>
    match discoverLoop opts net parseXml compileRegex fuel parsedBase.origin commonLocations with
    | some urls => some urls
    | none =>
      match fetchUrl net fuel (parsedBase.origin ++ "/robots.txt") with
      | none => some [baseUrl]
      | some robotsContent =>
        match findSitemapDirective robotsContent with
        | some s => some (sitemapCrawl opts net parseXml compileRegex fuel (jsTrim s))
        | none => some [baseUrl]

/-! ## Scan scheduler (the `Scanner` module) -/

structure PageScanJob where
  url : String
  viewport : ViewportConfig
  deriving DecidableEq, Repr

structure PageScanResult where
  job : PageScanJob
  findings : List Finding
  error : Option String := none
  deriving DecidableEq, Repr

/-- A recorded `ScanError` (`timestamp`, a wall-clock value, is not
modelled). -/
structure ScanErrorRec where
  pageUrl : String
  viewport : ViewportPreset
  error : String
  deriving DecidableEq, Repr

/-- `Scanner.scanPage` given the browser oracle `step`: the try block
either completes with findings or throws after having pushed some
findings; either way the result carries the job, the findings pushed so
far, and the error message if one was caught. -/
def scanPage (step : PageScanJob → List Finding × Option String) (job : PageScanJob) :
    PageScanResult :=
  { job := job, findings := (step job).1, error := (step job).2 }

/-- `jobs.slice(i, i + batchSize)` batching.  Fuel is the list length;
with a positive batch size it never runs out. -/
def chunksAux (n : Nat) : Nat → List α → List (List α)
  | 0, _ => []
  | _ + 1, [] => []
  | fuel + 1, l => l.take n :: chunksAux n fuel (l.drop n)

def chunks (n : Nat) (l : List α) : List (List α) :=
  chunksAux n l.length l

/-- The job matrix of `Scanner.scan`: URL-major cross product of
discovered URLs and requested viewports. -/
def buildJobs (urls : List String) (viewports : List ViewportConfig) : List PageScanJob :=
  urls.flatMap fun url => viewports.map fun v => { url := url, viewport := v }

/-- The `for (const result of results)` accumulation: an errored job is
recorded in the error list, a clean job appends its findings. -/
def processResults (results : List PageScanResult)
    (acc : List Finding × List ScanErrorRec) : List Finding × List ScanErrorRec :=
  results.foldl
    (fun acc r =>
      match r.error with
      | some e =>
        (acc.1, acc.2 ++ [{ pageUrl := r.job.url, viewport := r.job.viewport.name, error := e }])
      | none => (acc.1 ++ r.findings, acc.2))
    acc

/-- The batched job execution of `Scanner.scan`: jobs are processed in
batches of `concurrency || 3` (JS falsiness), each batch settling fully
before the next starts; returns the aggregated findings and errors. -/
def runJobs (step : PageScanJob → List Finding × Option String) (concurrency : Nat)
    (jobs : List PageScanJob) : List Finding × List ScanErrorRec :=
  let batchSize := if concurrency = 0 then 3 else concurrency
  (chunks batchSize jobs).foldl
    (fun acc batch => processResults (batch.map (scanPage step)) acc) ([], [])

structure SeverityCounts where
  critical : Nat := 0
  high : Nat := 0
  medium : Nat := 0
  low : Nat := 0
  info : Nat := 0
  deriving DecidableEq, Repr

def SeverityCounts.bump (c : SeverityCounts) : Severity → SeverityCounts
  | .critical => { c with critical := c.critical + 1 }
  | .high => { c with high := c.high + 1 }
  | .medium => { c with medium := c.medium + 1 }
  | .low => { c with low := c.low + 1 }
  | .info => { c with info := c.info + 1 }

structure CategoryCounts where
  accessibility : Nat := 0
  usability : Nat := 0
  specCount : Nat := 0
  deriving DecidableEq, Repr

def CategoryCounts.bump (c : CategoryCounts) : FindingCategory → CategoryCounts
  | .accessibility => { c with accessibility := c.accessibility + 1 }
  | .usability => { c with usability := c.usability + 1 }
  | .spec => { c with specCount := c.specCount + 1 }

/-- `ScanSummary` (the wall-clock fields `scanDuration`, `startTime` and
`endTime` are not modelled). -/
structure ScanSummary where
  pagesScanned : Nat
  findings : SeverityCounts
  byCategory : CategoryCounts
  viewportsScanned : List ViewportPreset
  errors : List ScanErrorRec
  deriving DecidableEq, Repr

/-- `Scanner.buildSummary`: count the (deduplicated) findings by severity
and category; `pagesScanned` is whatever count the caller passes in. -/
def buildSummary (pagesScanned : Nat) (findings : List Finding)
    (viewports : List ViewportPreset) (errors : List ScanErrorRec) : ScanSummary :=
  let counts := findings.foldl
    (fun (acc : SeverityCounts × CategoryCounts) f =>
      (acc.1.bump f.severity, acc.2.bump f.category))
    ({}, {})
  { pagesScanned := pagesScanned
    findings := counts.1
    byCategory := counts.2
    viewportsScanned := viewports
    errors := errors }

/-- The post-discovery pipeline of `Scanner.scan`: build the job matrix,
run the jobs in batches, deduplicate the findings of clean jobs, and
build the summary — with `urls.length` passed as `pagesScanned`. -/
def Scanner.scanSummary (hash : String → String)
    (step : PageScanJob → List Finding × Option String) (concurrency : Nat)
    (urls : List String) (viewports : List ViewportConfig) : ScanSummary :=
  let jobs := buildJobs urls viewports
  let results := runJobs step concurrency jobs
  let dedupedFindings := deduplicateFindings hash results.1
  buildSummary urls.length (dedupedFindings.map (·.toFinding)) (viewports.map (·.name)) results.2

/-! ## Derived views used in specifications -/

/-- The findings aggregated by `Scanner.scan`: exactly the findings of
jobs whose result carries no error, in job order. -/
def cleanJobFindings (step : PageScanJob → List Finding × Option String)
    (jobs : List PageScanJob) : List Finding :=
  (jobs.filter fun j => (step j).2 = none).flatMap fun j => (step j).1

/-- The `ScanError` records collected by `Scanner.scan`: one per errored
job, keyed by the job's url and viewport name, in job order. -/
def jobErrorRecs (step : PageScanJob → List Finding × Option String)
    (jobs : List PageScanJob) : List ScanErrorRec :=
  jobs.filterMap fun j =>
    ((step j).2).map fun e => { pageUrl := j.url, viewport := j.viewport.name, error := e }

/-- A finding with no usable selector: the selector list is empty, or its
first entry normalises to the empty string. -/
def noUsableSelector (f : Finding) : Prop :=
  f.evidence.selectors = [] ∨
    ∃ s, f.evidence.selectors.head? = some s ∧ normalizeSelectorPipeline s = ""

/-- Keys of the signature → group map, in insertion order. -/
def sigKeys (m : List (String × List Finding)) : List String :=
  m.map Prod.fst

/-- Invariant of the grouping loop of `deduplicateFindings`: keys are
distinct, every group is exactly the (non-empty) sublist of processed
findings bearing its signature, and every processed finding's signature
is a key. -/
def GoodMap (hash : String → String) (fs : List Finding)
    (m : List (String × List Finding)) : Prop :=
  (sigKeys m).Nodup ∧
  (∀ p ∈ m, p.2 = fs.filter (fun f => generateSignature hash f = p.1) ∧ p.2 ≠ []) ∧
  (∀ f ∈ fs, generateSignature hash f ∈ sigKeys m)

/-- Invariant of the BFS loop: discovered depths are nondecreasing, the
queue is depth-sorted with spread at most one, discovered depths never
exceed queued depths, and the discovered count respects `maxPages`;
the visited set is exactly the normalized discovered list, without
duplicates. -/
structure BfsInv (opts : BfsCrawlerOptions) (st : BfsState) : Prop where
  discSorted : st.discovered.Pairwise (fun a b => a.2 ≤ b.2)
  queueSorted : st.queue.Pairwise (fun a b => a.depth ≤ b.depth)
  spread : ∀ a ∈ st.queue, ∀ b ∈ st.queue, b.depth ≤ a.depth + 1
  cross : ∀ a ∈ st.discovered, ∀ b ∈ st.queue, a.2 ≤ b.depth
  lenLe : st.discovered.length ≤ opts.maxPages
  visEq : st.visited = st.discovered.map (fun p => normalizeUrl p.1)
  visNodup : st.visited.Nodup

/-! ## Concrete instances for witnesses and counterexamples -/

/-- A regex engine whose constructor always throws — exercising the
substring fallback. -/
def noRegex : String → Option (String → Bool) := fun _ => none

/-- A network where every request fails. -/
def noNet : String → Option HttpResponse := fun _ => none

/-- An XML parser that always fails. -/
def noXml : String → Option XmlDoc := fun _ => none

/-- C1 counterexample network: no sitemap at any well-known location, a
robots.txt declaring a sitemap, and that sitemap parsing to an empty
`<urlset>`. -/
def netC1 : String → Option HttpResponse
  | "https://site.test/robots.txt" =>
    some { status := 200, body := "Sitemap: https://site.test/sm.xml" }
  | "https://site.test/sm.xml" => some { status := 200, body := "emptysm" }
  | _ => none

def pxC1 : String → Option XmlDoc
  | "emptysm" => some { urlset := some [] }
  | _ => none

def vpDesktop : ViewportConfig := VIEWPORT_PRESETS .desktop

def jobW1 : PageScanJob := { url := "https://a.test/1", viewport := vpDesktop }

def jobW2 : PageScanJob := { url := "https://a.test/2", viewport := vpDesktop }

def findW2 : Finding :=
  { id := "f1", category := .usability, severity := .low, confidence := .likely,
    pageUrl := "https://a.test/2", viewport := .desktop, evidence := { selectors := [] } }

/-- C2 witness oracle: the first job's navigation throws, the second
completes with one finding. -/
def stepC2 : PageScanJob → List Finding × Option String := fun j =>
  if j.url = "https://a.test/1" then ([], some "nav timeout") else ([findW2], none)

/-- C3 counterexample site: the seed links to `/a` and `/b`, both of
which link to `/c` — a diamond. -/
def siteLinksC3 : String → Option (List String)
  | "https://s.test/" => some ["https://s.test/a", "https://s.test/b"]
  | "https://s.test/a" => some ["https://s.test/c"]
  | "https://s.test/b" => some ["https://s.test/c"]
  | _ => some []

def boptsC3 : BfsCrawlerOptions := { maxPages := 10, maxDepth := 3 }

/-- C4 counterexample oracle: every job's navigation throws. -/
def stepErrC4 : PageScanJob → List Finding × Option String := fun _ => ([], some "nav failed")

/-- C5 counterexample network: a two-hop redirect chain ending in a 200. -/
def netC5 : String → Option HttpResponse
  | "https://r.test/a" => some { status := 301, location := some "https://r.test/b" }
  | "https://r.test/b" => some { status := 302, location := some "https://r.test/c" }
  | "https://r.test/c" => some { status := 200, body := "deep" }
  | _ => none

/-- C5 witness network: one 404 URL and a single-hop redirect. -/
def netC5w : String → Option HttpResponse
  | "https://w.test/missing" => some { status := 404 }
  | "https://w.test/a" => some { status := 301, location := some "https://w.test/b" }
  | "https://w.test/b" => some { status := 200, body := "ok" }
  | _ => none

/-- C6 witness site: the seed links to one child page. -/
def siteLinksC6 : String → Option (List String)
  | "https://s.test/" => some ["https://s.test/a"]
  | _ => some []

def boptsC6 : BfsCrawlerOptions := { maxPages := 5, maxDepth := 2 }

/-- C7 counterexample: a sitemap with one URL, requested with
`maxUrls = 0` (JS-falsy, so the truncation is skipped). -/
def netC7 : String → Option HttpResponse
  | "https://a.test/sitemap.xml" => some { status := 200, body := "smbody" }
  | _ => none

def pxC7 : String → Option XmlDoc
  | "smbody" => some { urlset := some [{ loc := some "https://a.test/p1" }] }
  | _ => none

def optsC7 : SitemapOptions := { maxUrls := 0 }

/-- C7 witness: a three-URL sitemap requested with `maxUrls = 2`. -/
def pxC7w : String → Option XmlDoc
  | "smbody" =>
    some { urlset := some [{ loc := some "https://a.test/p1" },
                           { loc := some "https://a.test/p2" },
                           { loc := some "https://a.test/p3" }] }
  | _ => none

def optsC7w : SitemapOptions := { maxUrls := 2 }

def findC8a : Finding :=
  { id := "a1", category := .accessibility, severity := .high, confidence := .certain,
    pageUrl := "https://shop.example.com/product/12", viewport := .desktop,
    evidence := { selectors := [".product-card:nth-child(2) > .title"] },
    ruleId := some "label-missing" }

def findC8b : Finding :=
  { id := "a2", category := .accessibility, severity := .high, confidence := .certain,
    pageUrl := "https://shop.example.com/product/99", viewport := .desktop,
    evidence := { selectors := [".product-card:nth-child(7) > .title"] },
    ruleId := some "label-missing" }

/-- C9 witness findings: same page and viewport, different ids — one
cluster with occurrenceCount 2 but a single affected page. -/
def findC9a : Finding :=
  { id := "b1", category := .usability, severity := .medium, confidence := .likely,
    pageUrl := "https://s.test/p", viewport := .mobile,
    evidence := { selectors := ["nav .menu"] }, tool := some "usability" }

def findC9b : Finding :=
  { id := "b2", category := .usability, severity := .medium, confidence := .likely,
    pageUrl := "https://s.test/p", viewport := .mobile,
    evidence := { selectors := ["nav .menu"] }, tool := some "usability" }

/-- The cluster that `deduplicateFindings` produces from the two C9
witness findings. -/
def clusterC9 : ClusteredFinding :=
  { toFinding := { findC9a with id := "clustered-b1" }
    affectedPages := ["https://s.test/p"]
    occurrenceCount := 2
    representativeUrl := "https://s.test/p" }

/-- C10 witness findings: one with no selectors at all, one whose first
selector normalises to the empty string. -/
def findC10a : Finding :=
  { id := "c1", category := .spec, severity := .info, confidence := .needs_review,
    pageUrl := "https://s.test/q", viewport := .tablet,
    evidence := { selectors := [] }, ruleId := some "spacing" }

def findC10b : Finding :=
  { id := "c2", category := .spec, severity := .info, confidence := .needs_review,
    pageUrl := "https://s.test/q", viewport := .tablet,
    evidence := { selectors := [":nth-child(3)"] }, ruleId := some "spacing" }

/-! # Theorems -/

/-! ## Scheduler lemmas -/

theorem chunksAux_flatten {α : Type} (n : Nat) (hn : 0 < n) :
    ∀ (fuel : Nat) (l : List α), l.length ≤ fuel → (chunksAux n fuel l).flatten = l := by
  intro fuel
  induction fuel with
  | zero =>
    intro l hl
    have : l = [] := List.eq_nil_of_length_eq_zero (Nat.le_zero.mp hl)
    simp [this, chunksAux]
  | succ fuel ih =>
    intro l hl
    match l with
    | [] => simp [chunksAux]
    | a :: as =>
      simp only [chunksAux, List.flatten_cons]
      rw [ih]
      · exact List.take_append_drop n (a :: as)
      · rw [List.length_drop]
        have h1 : (a :: as).length - n ≤ (a :: as).length - 1 := Nat.sub_le_sub_left hn _
        simp only [List.length_cons, Nat.add_sub_cancel] at h1 hl ⊢
        omega

theorem chunks_flatten {α : Type} (n : Nat) (hn : 0 < n) (l : List α) :
    (chunks n l).flatten = l :=
  chunksAux_flatten n hn l.length l (Nat.le_refl _)

theorem cleanJobFindings_append (step : PageScanJob → List Finding × Option String)
    (a b : List PageScanJob) :
    cleanJobFindings step (a ++ b) = cleanJobFindings step a ++ cleanJobFindings step b := by
  simp [cleanJobFindings, List.filter_append]

theorem jobErrorRecs_append (step : PageScanJob → List Finding × Option String)
    (a b : List PageScanJob) :
    jobErrorRecs step (a ++ b) = jobErrorRecs step a ++ jobErrorRecs step b := by
  simp [jobErrorRecs, List.filterMap_append]

theorem processResults_spec (step : PageScanJob → List Finding × Option String) :
    ∀ (batch : List PageScanJob) (acc : List Finding × List ScanErrorRec),
      processResults (batch.map (scanPage step)) acc =
        (acc.1 ++ cleanJobFindings step batch, acc.2 ++ jobErrorRecs step batch) := by
  intro batch
  induction batch with
  | nil => intro acc; simp [processResults, cleanJobFindings, jobErrorRecs]
  | cons j rest ih =>
    intro acc
    simp only [List.map_cons, processResults, List.foldl_cons]
    cases he : (step j).2 with
    | some e =>
      simp only [scanPage, he]
      have h2 := ih (acc.1, acc.2 ++ [{ pageUrl := j.url, viewport := j.viewport.name, error := e }])
      simp only [processResults] at h2
      rw [h2]
      simp [cleanJobFindings, jobErrorRecs, List.filter_cons, List.filterMap_cons, he]
    | none =>
      simp only [scanPage, he]
      have h2 := ih (acc.1 ++ (step j).1, acc.2)
      simp only [processResults] at h2
      rw [h2]
      simp [cleanJobFindings, jobErrorRecs, List.filter_cons, List.filterMap_cons, he]

theorem foldBatches_spec (step : PageScanJob → List Finding × Option String) :
    ∀ (bs : List (List PageScanJob)) (acc : List Finding × List ScanErrorRec),
      bs.foldl (fun acc batch => processResults (batch.map (scanPage step)) acc) acc =
        (acc.1 ++ cleanJobFindings step bs.flatten, acc.2 ++ jobErrorRecs step bs.flatten) := by
  intro bs
  induction bs with
  | nil => intro acc; simp [cleanJobFindings, jobErrorRecs]
  | cons b rest ih =>
    intro acc
    rw [List.foldl_cons, processResults_spec, ih]
    simp [List.flatten_cons, cleanJobFindings_append, jobErrorRecs_append, List.append_assoc]

/-- Characterisation of the batch scheduler: regardless of the batch
size, the run aggregates exactly the clean jobs' findings and one error
record per errored job, in job order. -/
theorem runJobs_spec (step : PageScanJob → List Finding × Option String)
    (concurrency : Nat) (jobs : List PageScanJob) :
    runJobs step concurrency jobs = (cleanJobFindings step jobs, jobErrorRecs step jobs) := by
  unfold runJobs
  have hpos : 0 < (if concurrency = 0 then 3 else concurrency) := by
    split <;> omega
  rw [foldBatches_spec, chunks_flatten _ hpos]
  simp

/-- C2: if a job's navigation (or any per-job step) throws, the run
records a ScanError for that job's url/viewport pair, the aggregate
finding list consists exactly of the non-errored jobs' findings (so the
failed job contributes none and every sibling's findings are present),
and the error list has exactly one record per errored job — the scheduler
run is never aborted by a job failure. -/
theorem scheduler_isolates_job_failures
    (step : PageScanJob → List Finding × Option String) (concurrency : Nat)
    (jobs : List PageScanJob) (j : PageScanJob) (msg : String)
    (hmem : j ∈ jobs) (herr : (step j).2 = some msg) :
    ({ pageUrl := j.url, viewport := j.viewport.name, error := msg } : ScanErrorRec) ∈
        (runJobs step concurrency jobs).2 ∧
    (runJobs step concurrency jobs).1 = cleanJobFindings step jobs ∧
    (runJobs step concurrency jobs).2 = jobErrorRecs step jobs := by
  rw [runJobs_spec]
  refine ⟨?_, rfl, rfl⟩
  simp only [jobErrorRecs]
  exact List.mem_filterMap.mpr ⟨j, hmem, by rw [herr]; rfl⟩

/-- Witness for C2 at a concrete two-job batch whose first job errors. -/
theorem scheduler_isolates_job_failures_witness :
    jobW1 ∈ [jobW1, jobW2] ∧ (stepC2 jobW1).2 = some "nav timeout" ∧
    (({ pageUrl := jobW1.url, viewport := jobW1.viewport.name, error := "nav timeout" } :
        ScanErrorRec) ∈ (runJobs stepC2 3 [jobW1, jobW2]).2 ∧
      (runJobs stepC2 3 [jobW1, jobW2]).1 = cleanJobFindings stepC2 [jobW1, jobW2] ∧
      (runJobs stepC2 3 [jobW1, jobW2]).2 = jobErrorRecs stepC2 [jobW1, jobW2]) :=
  ⟨by decide, by decide,
    scheduler_isolates_job_failures stepC2 3 [jobW1, jobW2] jobW1 "nav timeout"
      (by decide) (by decide)⟩

/-! ## C4 lemmas -/

theorem foldPair_fst (fs : List Finding) :
    ∀ acc : SeverityCounts × CategoryCounts,
      (fs.foldl (fun acc f => (acc.1.bump f.severity, acc.2.bump f.category)) acc).1 =
        fs.foldl (fun c f => c.bump f.severity) acc.1 := by
  induction fs with
  | nil => intro acc; rfl
  | cons f rest ih => intro acc; simp only [List.foldl_cons, ih]

theorem buildSummary_findings (n : Nat) (fs : List Finding) (vps : List ViewportPreset)
    (es : List ScanErrorRec) :
    (buildSummary n fs vps es).findings = fs.foldl (fun c f => c.bump f.severity) {} := by
  simp only [buildSummary]
  exact foldPair_fst fs _

/-- C4 amended: `pagesScanned` equals the number of discovered URLs
whether or not their jobs errored; the per-severity totals are computed
from the deduplicated findings of the jobs that completed without error
only; and the error list records exactly the errored jobs. -/
theorem summary_counters_amended (hash : String → String)
    (step : PageScanJob → List Finding × Option String) (concurrency : Nat)
    (urls : List String) (vps : List ViewportConfig) :
    (Scanner.scanSummary hash step concurrency urls vps).pagesScanned = urls.length ∧
    (Scanner.scanSummary hash step concurrency urls vps).findings =
      ((deduplicateFindings hash (cleanJobFindings step (buildJobs urls vps))).map
        (·.toFinding)).foldl (fun c f => c.bump f.severity) {} ∧
    (Scanner.scanSummary hash step concurrency urls vps).errors =
      jobErrorRecs step (buildJobs urls vps) := by
  simp only [Scanner.scanSummary, runJobs_spec]
  exact ⟨rfl, buildSummary_findings _ _ _ _, rfl⟩

/-- Counterexample to C4 as stated: a run whose only job errors still
reports `pagesScanned = 1` (the discovered-URL count), although no job
completed without error. -/
theorem summary_counters_counterexample :
    (Scanner.scanSummary id stepErrC4 3 ["https://a.test"] [vpDesktop]).pagesScanned = 1 ∧
    (buildJobs ["https://a.test"] [vpDesktop]).filter (fun j => (stepErrC4 j).2 = none) = [] :=
  ⟨rfl, rfl⟩

/-! ## C1 lemmas -/

theorem discoverLoop_none (opts : SitemapOptions) (net : String → Option HttpResponse)
    (px : String → Option XmlDoc) (cr : String → Option (String → Bool))
    (fuel : Nat) (origin : String) :
    ∀ locs, (∀ loc ∈ locs, sitemapCrawl opts net px cr fuel (origin ++ loc) = []) →
      discoverLoop opts net px cr fuel origin locs = none := by
  intro locs
  induction locs with
  | nil => intro _; rfl
  | cons l rest ih =>
    intro h
    have h0 : sitemapCrawl opts net px cr fuel (origin ++ l) = [] := h l (by simp)
    simp only [discoverLoop, h0]
    simpa using ih fun loc hm => h loc (List.mem_cons_of_mem _ hm)

/-- C1 amended: on a base URL the URL constructor accepts, `discover`
never fails; when every well-known location yields no URLs, the result is
`[baseUrl]` if robots.txt is unavailable or carries no `Sitemap:`
directive — but when a directive is found, the result is that sitemap's
crawl result, even when it is empty (no `[baseUrl]` fallback). -/
theorem sitemap_discover_amended (opts : SitemapOptions) (net : String → Option HttpResponse)
    (px : String → Option XmlDoc) (cr : String → Option (String → Bool))
    (fuel : Nat) (baseUrl : String) (parts : UrlParts)
    (hparse : parseUrl baseUrl = some parts) :
    (SitemapCrawler.discover opts net px cr fuel baseUrl).isSome = true ∧
    ((∀ loc ∈ commonLocations, sitemapCrawl opts net px cr fuel (parts.origin ++ loc) = []) →
      (fetchUrl net fuel (parts.origin ++ "/robots.txt") = none →
        SitemapCrawler.discover opts net px cr fuel baseUrl = some [baseUrl]) ∧
      (∀ robotsContent, fetchUrl net fuel (parts.origin ++ "/robots.txt") = some robotsContent →
        (findSitemapDirective robotsContent = none →
          SitemapCrawler.discover opts net px cr fuel baseUrl = some [baseUrl]) ∧
        (∀ s, findSitemapDirective robotsContent = some s →
          SitemapCrawler.discover opts net px cr fuel baseUrl =
            some (sitemapCrawl opts net px cr fuel (jsTrim s))))) := by
  constructor
  · simp only [SitemapCrawler.discover, hparse]
    cases discoverLoop opts net px cr fuel parts.origin commonLocations with
    | some urls => rfl
    | none =>
      cases fetchUrl net fuel (parts.origin ++ "/robots.txt") with
      | none => rfl
      | some rc =>
        have h : (match findSitemapDirective rc with
            | some s => some (sitemapCrawl opts net px cr fuel (jsTrim s))
            | none => some [baseUrl]).isSome = true := by
          cases findSitemapDirective rc <;> rfl
        exact h
  · intro hempty
    have hdl := discoverLoop_none opts net px cr fuel parts.origin commonLocations hempty
    refine ⟨?_, ?_⟩
    · intro hf
      simp only [SitemapCrawler.discover, hparse, hdl, hf]
    · intro rc hf
      refine ⟨?_, ?_⟩
      · intro hnd
        simp only [SitemapCrawler.discover, hparse, hdl, hf, hnd]
      · intro s hs
        simp only [SitemapCrawler.discover, hparse, hdl, hf, hs]

/-- Counterexample to C1 as stated: with no sitemap at any well-known
location and a robots.txt declaring a sitemap that yields no URLs,
`discover` returns `[]`, not the `[baseUrl]` fallback. -/
theorem sitemap_discover_counterexample :
    SitemapCrawler.discover {} netC1 pxC1 noRegex 9 "https://site.test" = some [] ∧
    (some ([] : List String)) ≠ some ["https://site.test"] :=
  ⟨by decide, by decide⟩

/-- Witness for the amended C1 at a network with no sitemap and no
robots.txt: the `[baseUrl]` fallback fires. -/
theorem sitemap_discover_amended_witness :
    parseUrl "https://w.test" =
      some { scheme := "https", hostPort := "w.test", hostname := "w.test",
             pathname := "/", searchRaw := "" } ∧
    SitemapCrawler.discover {} noNet noXml noRegex 3 "https://w.test" =
      some ["https://w.test"] := by
  refine ⟨by decide, ?_⟩
  have h := sitemap_discover_amended {} noNet noXml noRegex 3 "https://w.test"
    { scheme := "https", hostPort := "w.test", hostname := "w.test",
      pathname := "/", searchRaw := "" } (by decide)
  exact (h.2 (by intro loc hloc; fin_cases hloc <;> decide)).1 (by decide)

/-! ## C5 -/

/-- C5 amended: a connection error/timeout or a non-200, non-redirect
response makes the fetch fail — and a failed fetch of a candidate makes
`crawl` yield `[]`, so discovery falls back to the next candidate rather
than failing — but a 301/302 with a `Location` is followed by a full
recursive call, so redirect chains of any length are followed (not at
most one). -/
theorem sitemap_fetch_amended (net : String → Option HttpResponse) (fuel : Nat) (url : String) :
    (net url = none → fetchUrl net (fuel + 1) url = none) ∧
    (∀ resp, net url = some resp → resp.status ≠ 200 → resp.status ≠ 301 →
      resp.status ≠ 302 → fetchUrl net (fuel + 1) url = none) ∧
    (∀ resp loc, net url = some resp → (resp.status = 301 ∨ resp.status = 302) →
      resp.location = some loc → fetchUrl net (fuel + 1) url = fetchUrl net fuel loc) ∧
    (∀ (opts : SitemapOptions) (px : String → Option XmlDoc)
      (cr : String → Option (String → Bool)),
      fetchUrl net fuel url = none → sitemapCrawl opts net px cr fuel url = []) := by
  refine ⟨?_, ?_, ?_, ?_⟩
  · intro h; simp [fetchUrl, h]
  · intro resp hresp h200 h301 h302
    simp [fetchUrl, hresp, h200, h301, h302]
  · intro resp loc hresp hred hloc
    rcases hred with h | h <;> simp [fetchUrl, hresp, h, hloc]
  · intro opts px cr h
    cases fuel with
    | zero => rfl
    | succ f => simp [sitemapCrawl, h]

/-- Counterexample to C5 as stated: a chain of two redirects is followed
to the end — the fetch succeeds with the body two hops away instead of
treating the second redirect as "not found". -/
theorem sitemap_fetch_counterexample :
    fetchUrl netC5 10 "https://r.test/a" = some "deep" ∧
    netC5 "https://r.test/a" = some { status := 301, location := some "https://r.test/b" } ∧
    netC5 "https://r.test/b" = some { status := 302, location := some "https://r.test/c" } :=
  ⟨by decide, by decide, by decide⟩

/-- Witness for the amended C5: a 404 fails the fetch and yields an empty
crawl; a single redirect hop reduces to a recursive fetch. -/
theorem sitemap_fetch_amended_witness :
    fetchUrl netC5w 3 "https://w.test/missing" = none ∧
    fetchUrl netC5w 3 "https://w.test/a" = fetchUrl netC5w 2 "https://w.test/b" ∧
    sitemapCrawl {} netC5w noXml noRegex 2 "https://w.test/missing" = [] := by
  refine ⟨?_, ?_, ?_⟩
  · exact (sitemap_fetch_amended netC5w 2 "https://w.test/missing").2.1
      { status := 404 } (by decide) (by decide) (by decide) (by decide)
  · exact (sitemap_fetch_amended netC5w 2 "https://w.test/a").2.2.1
      { status := 301, location := some "https://w.test/b" } "https://w.test/b"
      (by decide) (Or.inl (by decide)) (by decide)
  · exact (sitemap_fetch_amended netC5w 2 "https://w.test/missing").2.2.2
      {} noXml noRegex (by decide)

/-! ## BFS loop invariants -/

theorem bfsInv_pop (opts : BfsCrawlerOptions) (st : BfsState) (item : CrawlQueueItem)
    (rest : List CrawlQueueItem) (hq : st.queue = item :: rest) (h : BfsInv opts st) :
    BfsInv opts { queue := rest, visited := st.visited, discovered := st.discovered,
                  enqueuedLog := st.enqueuedLog } := by
  obtain ⟨h1, h2, h3, h4, h5, h6, h7⟩ := h
  rw [hq] at h2 h3 h4
  exact ⟨h1, (List.pairwise_cons.mp h2).2,
    fun a ha b hb => h3 a (List.mem_cons_of_mem _ ha) b (List.mem_cons_of_mem _ hb),
    fun a ha b hb => h4 a ha b (List.mem_cons_of_mem _ hb), h5, h6, h7⟩

theorem bfsInv_add (opts : BfsCrawlerOptions) (st : BfsState) (item : CrawlQueueItem)
    (rest : List CrawlQueueItem) (hq : st.queue = item :: rest)
    (hlen : st.discovered.length < opts.maxPages)
    (hvis : normalizeUrl item.url ∉ st.visited) (h : BfsInv opts st) :
    BfsInv opts { queue := rest, visited := st.visited ++ [normalizeUrl item.url],
                  discovered := st.discovered ++ [(item.url, item.depth)],
                  enqueuedLog := st.enqueuedLog } := by
  obtain ⟨h1, h2, h3, h4, h5, h6, h7⟩ := h
  rw [hq] at h2 h3 h4
  have hhead : item ∈ item :: rest := List.mem_cons_self _ _
  refine ⟨?_, (List.pairwise_cons.mp h2).2, ?_, ?_, ?_, ?_, ?_⟩
  · refine List.pairwise_append.mpr ⟨h1, List.pairwise_singleton _ _, ?_⟩
    intro a ha b hb
    rw [List.mem_singleton] at hb
    subst hb
    exact h4 a ha item hhead
  · intro a ha b hb
    exact h3 a (List.mem_cons_of_mem _ ha) b (List.mem_cons_of_mem _ hb)
  · intro a ha b hb
    rcases List.mem_append.mp ha with ha | ha
    · exact h4 a ha b (List.mem_cons_of_mem _ hb)
    · rw [List.mem_singleton] at ha
      subst ha
      exact (List.pairwise_cons.mp h2).1 b hb
  · simpa using hlen
  · simp [h6]
  · refine List.nodup_append.mpr ⟨h7, List.nodup_singleton _, ?_⟩
    intro a ha hb
    rw [List.mem_singleton] at hb
    exact hvis (hb ▸ ha)

theorem bfsInv_enqueue (opts : BfsCrawlerOptions) (q : List CrawlQueueItem)
    (vis log log2 : List String) (disc : List (String × Nat)) (d : Nat)
    (newItems : List CrawlQueueItem)
    (hnew : ∀ x ∈ newItems, x.depth = d + 1)
    (hq1 : ∀ b ∈ q, d ≤ b.depth) (hq2 : ∀ b ∈ q, b.depth ≤ d + 1)
    (hdisc : ∀ a ∈ disc, a.2 ≤ d)
    (h : BfsInv opts ⟨q, vis, disc, log⟩) :
    BfsInv opts ⟨q ++ newItems, vis, disc, log2⟩ := by
  obtain ⟨h1, h2, h3, h4, h5, h6, h7⟩ := h
  refine ⟨h1, ?_, ?_, ?_, h5, h6, h7⟩
  · refine List.pairwise_append.mpr ⟨h2, ?_, ?_⟩
    · exact List.pairwise_of_forall_mem_list fun a ha b hb => by
        rw [hnew a ha, hnew b hb]
    · intro a ha b hb
      rw [hnew b hb]
      exact hq2 a ha
  · intro a ha b hb
    rcases List.mem_append.mp ha with ha | ha <;> rcases List.mem_append.mp hb with hb | hb
    · exact h3 a ha b hb
    · rw [hnew b hb]
      have := hq1 a ha
      omega
    · rw [hnew a ha]
      have := hq2 b hb
      omega
    · rw [hnew a ha, hnew b hb]
      omega
  · intro a ha b hb
    rcases List.mem_append.mp hb with hb | hb
    · exact h4 a ha b hb
    · rw [hnew b hb]
      have := hdisc a ha
      omega

/-- The BFS loop preserves `BfsInv` for any fuel. -/
theorem bfsLoop_inv (opts : BfsCrawlerOptions) (cr : String → Option (String → Bool))
    (linksOf : String → Option (List String)) (startDomain : String)
    (dps : List String) :
    ∀ (fuel : Nat) (st : BfsState), BfsInv opts st →
      BfsInv opts (bfsLoop opts cr linksOf startDomain dps fuel st) := by
  intro fuel st
  induction fuel, st using bfsLoop.induct opts cr linksOf startDomain dps with
  | case1 st =>
    intro h
    simpa [bfsLoop] using h
  | case2 fuel st hq =>
    intro h
    rw [bfsLoop, hq]
    exact h
  | case3 fuel st item rest hq hfull =>
    intro h
    rw [bfsLoop, hq]
    simpa [hfull] using h
  | case4 fuel st item rest hq hfull norm hvis ih =>
    intro h
    rw [bfsLoop, hq]
    simp only [hfull, hvis, if_true, if_false, ite_true, ite_false]
    exact ih (bfsInv_pop opts st item rest hq h)
  | case5 fuel st item rest hq hfull norm hvis hdepth ih =>
    intro h
    rw [bfsLoop, hq]
    simp only [hfull, hvis, hdepth, if_true, if_false, ite_true, ite_false]
    exact ih (bfsInv_pop opts st item rest hq h)
  | case6 fuel st item rest hq hfull norm hvis hdepth hdis ih =>
    intro h
    rw [bfsLoop, hq]
    simp only [hfull, hvis, hdepth, hdis, if_true, if_false, ite_true, ite_false]
    exact ih (bfsInv_pop opts st item rest hq h)
  | case7 fuel st item rest hq hfull norm hvis hdepth hdis hallow ih =>
    intro h
    rw [bfsLoop, hq]
    simp only [hfull, hvis, hdepth, hdis, hallow, if_true, if_false, ite_true, ite_false,
      Bool.not_eq_true]
    exact ih (bfsInv_pop opts st item rest hq h)
  | case8 fuel st item rest hq hfull norm hvis hdepth hdis hallow st1 hbreak =>
    intro h
    rw [bfsLoop, hq]
    simp only [hfull, hvis, hdepth, hdis, hallow, hbreak, if_true, if_false, ite_true,
      ite_false, Bool.not_eq_true]
    exact bfsInv_add opts st item rest hq (by omega) hvis h
  | case9 fuel st item rest hq hfull norm hvis hdepth hdis hallow st1 hbreak hmax ih =>
    intro h
    rw [bfsLoop, hq]
    simp only [hfull, hvis, hdepth, hdis, hallow, hbreak, hmax, if_true, if_false,
      ite_true, ite_false, Bool.not_eq_true]
    exact ih (bfsInv_add opts st item rest hq (by omega) hvis h)
  | case10 fuel st item rest hq hfull norm hvis hdepth hdis hallow st1 hbreak hmax hlinks ih =>
    intro h
    rw [bfsLoop, hq]
    simp only [hfull, hvis, hdepth, hdis, hallow, hbreak, hmax, hlinks, if_true, if_false,
      ite_true, ite_false, Bool.not_eq_true]
    exact ih (bfsInv_add opts st item rest hq (by omega) hvis h)
  | case11 fuel st item rest hq hfull norm hvis hdepth hdis hallow st1 hbreak hmax rawLinks hlinks keep ih =>
    intro h
    rw [bfsLoop, hq]
    simp only [hfull, hvis, hdepth, hdis, hallow, hbreak, hmax, hlinks, if_true, if_false,
      ite_true, ite_false, Bool.not_eq_true]
    have hadd := bfsInv_add opts st item rest hq (by omega) hvis h
    have h2 := h.queueSorted
    have h3 := h.spread
    have h4 := h.cross
    rw [hq] at h2 h3 h4
    refine ih (bfsInv_enqueue opts rest _ _ _ _ item.depth _ ?_ ?_ ?_ ?_ hadd)
    · intro x hx
      rcases List.mem_map.mp hx with ⟨l, _, rfl⟩
      rfl
    · intro b hb
      exact (List.pairwise_cons.mp h2).1 b hb
    · intro b hb
      exact h3 item (List.mem_cons_self _ _) b (List.mem_cons_of_mem _ hb)
    · intro a ha
      rcases List.mem_append.mp ha with ha | ha
      · exact h4 a ha item (List.mem_cons_self _ _)
      · rw [List.mem_singleton] at ha
        subst ha
        exact Nat.le_refl _

/-- The initial BFS state satisfies the invariant. -/
theorem bfsInv_init (opts : BfsCrawlerOptions) (startUrl : String) :
    BfsInv opts { queue := [{ url := startUrl, depth := 0 }], visited := [],
                  discovered := [], enqueuedLog := [normalizeUrl startUrl] } := by
  refine ⟨List.Pairwise.nil, List.pairwise_singleton _ _, ?_, ?_, Nat.zero_le _, rfl,
    List.nodup_nil⟩
  · intro a ha b hb
    rw [List.mem_singleton] at ha hb
    subst ha; subst hb
    exact Nat.le_succ 0
  · intro a ha
    cases ha

theorem crawlState_inv (opts : BfsCrawlerOptions) (cr : String → Option (String → Bool))
    (linksOf : String → Option (List String)) (robotsNet : String → Option String)
    (fuel : Nat) (startUrl : String) (st : BfsState)
    (h : BfsCrawler.crawlState opts cr linksOf robotsNet fuel startUrl = some st) :
    BfsInv opts st := by
  unfold BfsCrawler.crawlState at h
  cases hp : parseUrl startUrl with
  | none => rw [hp] at h; cases h
  | some parts =>
    rw [hp] at h
    have h2 := Option.some.inj h
    subst h2
    exact bfsLoop_inv opts cr linksOf parts.hostname _ fuel _ (bfsInv_init opts startUrl)

/-- C6: whenever `BfsCrawler.crawl` resolves, it has discovered at most
`maxPages` URLs, and the discovery order is breadth-first: the discovery
depths are nondecreasing, so every depth-d page precedes every
depth-(d+1) page. -/
theorem bfs_bounded_breadth_first (opts : BfsCrawlerOptions)
    (cr : String → Option (String → Bool)) (linksOf : String → Option (List String))
    (robotsNet : String → Option String) (fuel : Nat) (startUrl : String)
    (res : List (String × Nat))
    (h : BfsCrawler.crawl opts cr linksOf robotsNet fuel startUrl = some res) :
    res.length ≤ opts.maxPages ∧ res.Pairwise (fun a b => a.2 ≤ b.2) := by
  unfold BfsCrawler.crawl at h
  cases hs : BfsCrawler.crawlState opts cr linksOf robotsNet fuel startUrl with
  | none => rw [hs] at h; cases h
  | some st =>
    rw [hs] at h
    have h2 := Option.some.inj h
    subst h2
    have hinv := crawlState_inv opts cr linksOf robotsNet fuel startUrl st hs
    exact ⟨hinv.lenLe, hinv.discSorted⟩

/-- Witness for C6 on a concrete two-page site. -/
theorem bfs_bounded_breadth_first_witness :
    BfsCrawler.crawl boptsC6 noRegex siteLinksC6 (fun _ => none) 10 "https://s.test/" =
      some [("https://s.test/", 0), ("https://s.test/a", 1)] ∧
    (([("https://s.test/", 0), ("https://s.test/a", 1)] : List (String × Nat)).length ≤
        boptsC6.maxPages ∧
      ([("https://s.test/", 0), ("https://s.test/a", 1)] : List (String × Nat)).Pairwise
        (fun a b => a.2 ≤ b.2)) :=
  ⟨by decide,
    bfs_bounded_breadth_first boptsC6 noRegex siteLinksC6 (fun _ => none) 10 "https://s.test/"
      [("https://s.test/", 0), ("https://s.test/a", 1)] (by decide)⟩

/-- C3 amended: during one crawl each URL is *visited* (recorded as
discovered) at most once — the VisitedSet is consulted at both enqueue
and dequeue time, and the normalized discovered list has no duplicates. -/
theorem bfs_visits_urls_at_most_once (opts : BfsCrawlerOptions)
    (cr : String → Option (String → Bool)) (linksOf : String → Option (List String))
    (robotsNet : String → Option String) (fuel : Nat) (startUrl : String) (st : BfsState)
    (h : BfsCrawler.crawlState opts cr linksOf robotsNet fuel startUrl = some st) :
    (st.discovered.map fun p => normalizeUrl p.1).Nodup := by
  have hinv := crawlState_inv opts cr linksOf robotsNet fuel startUrl st h
  have := hinv.visNodup
  rwa [hinv.visEq] at this

/-- Witness for the amended C3 on the concrete diamond site. -/
theorem bfs_visits_urls_at_most_once_witness :
    (BfsCrawler.crawlState boptsC3 noRegex siteLinksC3 (fun _ => none) 10
        "https://s.test/").isSome = true ∧
    ((BfsCrawler.crawlState boptsC3 noRegex siteLinksC3 (fun _ => none) 10
        "https://s.test/").map fun st =>
          (st.discovered.map fun p => normalizeUrl p.1).Nodup) = some True := by
  constructor
  · decide
  · cases hs : BfsCrawler.crawlState boptsC3 noRegex siteLinksC3 (fun _ => none) 10
        "https://s.test/" with
    | none =>
      have hsome : (BfsCrawler.crawlState boptsC3 noRegex siteLinksC3 (fun _ => none) 10
          "https://s.test/").isSome = true := by decide
      rw [hs] at hsome
      cases hsome
    | some st =>
      have hnd := bfs_visits_urls_at_most_once boptsC3 noRegex siteLinksC3 (fun _ => none) 10
        "https://s.test/" st hs
      simp [hnd]

/-- Counterexample to C3 as stated: on the diamond site the URL
`https://s.test/c` is pushed onto the queue twice — once while the page
`/a` is processed and once while `/b` is processed — because the
enqueue-time check only consults the VisitedSet, and `/c` is not yet
visited at either moment. -/
theorem bfs_enqueue_counterexample :
    (BfsCrawler.crawlState boptsC3 noRegex siteLinksC3 (fun _ => none) 10
        "https://s.test/").map (fun st => st.enqueuedLog.count "https://s.test/c") =
      some 2 := by decide

/-! ## Deduplication and filter lemmas -/

theorem dedupKeepFirstAux_subset :
    ∀ (fuel : Nat) (l : List String) (a : String), a ∈ dedupKeepFirstAux fuel l → a ∈ l := by
  intro fuel
  induction fuel with
  | zero => intro l a h; cases h
  | succ fuel ih =>
    intro l a h
    match l with
    | [] => cases h
    | x :: xs =>
      simp only [dedupKeepFirstAux] at h
      rcases List.mem_cons.mp h with rfl | h
      · exact List.mem_cons_self _ _
      · exact List.mem_cons_of_mem _ (List.mem_of_mem_filter (ih _ a h))

theorem dedupKeepFirstAux_nodup : ∀ (fuel : Nat) (l : List String),
    (dedupKeepFirstAux fuel l).Nodup := by
  intro fuel
  induction fuel with
  | zero => intro l; exact List.nodup_nil
  | succ fuel ih =>
    intro l
    match l with
    | [] => exact List.nodup_nil
    | x :: xs =>
      simp only [dedupKeepFirstAux]
      refine List.nodup_cons.mpr ⟨?_, ih _⟩
      intro hmem
      have := List.of_mem_filter (dedupKeepFirstAux_subset fuel _ x hmem)
      simp at this

theorem dedupKeepFirstAux_length_le : ∀ (fuel : Nat) (l : List String),
    (dedupKeepFirstAux fuel l).length ≤ l.length := by
  intro fuel
  induction fuel with
  | zero => intro l; simp [dedupKeepFirstAux]
  | succ fuel ih =>
    intro l
    match l with
    | [] => simp [dedupKeepFirstAux]
    | x :: xs =>
      simp only [dedupKeepFirstAux, List.length_cons]
      have h1 := ih (xs.filter (· ≠ x))
      have h2 := List.length_filter_le (fun b => decide (b ≠ x)) xs
      omega

theorem dedupKeepFirst_subset (l : List String) (a : String) (h : a ∈ dedupKeepFirst l) :
    a ∈ l :=
  dedupKeepFirstAux_subset l.length l a h

theorem dedupKeepFirst_nodup (l : List String) : (dedupKeepFirst l).Nodup :=
  dedupKeepFirstAux_nodup l.length l

theorem dedupKeepFirst_length_le (l : List String) : (dedupKeepFirst l).length ≤ l.length :=
  dedupKeepFirstAux_length_le l.length l

theorem length_capped {α : Type} (n : Nat) (l : List α) (hn : n ≠ 0) :
    (if n ≠ 0 && n < l.length then l.take n else l).length ≤ n := by
  split
  · rw [List.length_take]
    exact Nat.min_le_left _ _
  · next hc =>
    by_cases hlt : n < l.length
    · exact absurd (by simp [hn, hlt]) hc
    · omega

theorem filterUrls_length_le (opts : SitemapOptions)
    (cr : String → Option (String → Bool)) (urls : List SitemapUrl)
    (h : opts.maxUrls ≠ 0) : (filterUrls opts cr urls).length ≤ opts.maxUrls := by
  simp only [filterUrls]
  exact Nat.le_trans (dedupKeepFirst_length_le _) (length_capped _ _ h)

theorem filterUrls_nodup (opts : SitemapOptions) (cr : String → Option (String → Bool))
    (urls : List SitemapUrl) : (filterUrls opts cr urls).Nodup := by
  simp only [filterUrls]
  exact dedupKeepFirst_nodup _

theorem mem_ite_take {α : Type} {c : Prop} [Decidable c] {l : List α} {n : Nat} {a : α}
    (h : a ∈ if c then l.take n else l) : a ∈ l := by
  split at h
  · exact List.take_subset _ _ h
  · exact h

theorem mem_ite_filter {α : Type} {c : Prop} [Decidable c] {p : α → Bool} {l : List α} {a : α}
    (h : a ∈ if c then l.filter p else l) : a ∈ l ∧ (c → p a = true) := by
  split at h
  · next hc => exact ⟨List.mem_of_mem_filter h, fun _ => List.of_mem_filter h⟩
  · next hc => exact ⟨h, fun hcc => absurd hcc hc⟩

theorem filterUrls_mem (opts : SitemapOptions) (cr : String → Option (String → Bool))
    (urls : List SitemapUrl) (u : String) (hu : u ∈ filterUrls opts cr urls) :
    (opts.allowDomains ≠ [] → allowDomainOk opts.allowDomains u = true) ∧
    (opts.denyPatterns ≠ [] → denyPatternsHit cr opts.denyPatterns u = false) := by
  simp only [filterUrls] at hu
  have h3 := mem_ite_take (dedupKeepFirst_subset _ _ hu)
  have h4 := mem_ite_filter h3
  have h5 := mem_ite_filter h4.1
  constructor
  · intro had
    exact h5.2 (by simpa [List.isEmpty_iff] using had)
  · intro hdp
    have := h4.2 (by simpa [List.isEmpty_iff] using hdp)
    simpa using this

theorem sitemapIndexLoop_length_le (opts : SitemapOptions) (crawlChild : String → List String) :
    ∀ (entries : List (Option String)) (acc : List SitemapUrl),
      acc.length ≤ sitemapCap opts →
      (sitemapIndexLoop opts crawlChild entries acc).length ≤ sitemapCap opts := by
  intro entries
  induction entries with
  | nil => intro acc h; simpa [sitemapIndexLoop] using h
  | cons e rest ih =>
    intro acc h
    match e with
    | none => simp only [sitemapIndexLoop]; exact ih acc h
    | some loc =>
      simp only [sitemapIndexLoop]
      split
      · exact ih acc h
      · split
        · next hc =>
          simp only [List.length_append, List.length_map, List.length_take]
          omega
        · next hc =>
          refine ih _ ?_
          simp only [List.length_append, List.length_map]
          omega

/-- C7 amended: for every `maxUrls = N` with `N ≥ 1`, sitemap discovery
returns at most `N` URLs — filtered by the allow-domain and deny-pattern
lists (an invalid deny regex degrading to substring matching),
deduplicated by exact string match, truncated to `maxUrls` — and the
sitemap-index recursion stops accumulating once the `maxUrls || 100` cap
is reached.  (For `N = 0`, a JS falsiness quirk skips the truncation.) -/
theorem sitemap_maxurls_amended (opts : SitemapOptions) (net : String → Option HttpResponse)
    (px : String → Option XmlDoc) (cr : String → Option (String → Bool))
    (fuel : Nat) (url : String) (h : 1 ≤ opts.maxUrls) :
    (sitemapCrawl opts net px cr fuel url).length ≤ opts.maxUrls ∧
    (sitemapCrawl opts net px cr fuel url).Nodup ∧
    (∀ u ∈ sitemapCrawl opts net px cr fuel url,
      (opts.allowDomains ≠ [] → allowDomainOk opts.allowDomains u = true) ∧
      (opts.denyPatterns ≠ [] → denyPatternsHit cr opts.denyPatterns u = false)) ∧
    (∀ (crawlChild : String → List String) (entries : List (Option String)),
      (sitemapIndexLoop opts crawlChild entries []).length ≤ sitemapCap opts) := by
  have hmu : opts.maxUrls ≠ 0 := by omega
  have hcrawl : sitemapCrawl opts net px cr fuel url = [] ∨
      ∃ content, sitemapCrawl opts net px cr fuel url =
        filterUrls opts cr
          (parseSitemapDoc opts px (sitemapCrawl opts net px cr (fuel - 1)) content) := by
    cases fuel with
    | zero => exact Or.inl rfl
    | succ f =>
      cases hf : fetchUrl net (f + 1) url with
      | none => exact Or.inl (by simp [sitemapCrawl, hf])
      | some content =>
        exact Or.inr ⟨content, by simp [sitemapCrawl, hf]⟩
  refine ⟨?_, ?_, ?_, fun crawlChild entries =>
    sitemapIndexLoop_length_le opts crawlChild entries [] (Nat.zero_le _)⟩
  · rcases hcrawl with hc | ⟨content, hc⟩
    · simp [hc]
    · rw [hc]; exact filterUrls_length_le _ _ _ hmu
  · rcases hcrawl with hc | ⟨content, hc⟩
    · simp [hc]
    · rw [hc]; exact filterUrls_nodup _ _ _
  · intro u hu
    rcases hcrawl with hc | ⟨content, hc⟩
    · rw [hc] at hu; cases hu
    · rw [hc] at hu; exact filterUrls_mem _ _ _ _ hu

/-- Counterexample to C7 as stated at `maxUrls = 0`: the JS guard
`this.options.maxUrls && ...` is falsy, so the truncation is skipped and
a one-URL sitemap yields more than `maxUrls = 0` URLs. -/
theorem sitemap_maxurls_counterexample :
    ¬ ((sitemapCrawl optsC7 netC7 pxC7 noRegex 5 "https://a.test/sitemap.xml").length ≤
      optsC7.maxUrls) := by decide

/-- Witness for the amended C7: a three-URL sitemap requested with
`maxUrls = 2` yields at most 2 URLs. -/
theorem sitemap_maxurls_amended_witness :
    1 ≤ optsC7w.maxUrls ∧
    (sitemapCrawl optsC7w netC7 pxC7w noRegex 5 "https://a.test/sitemap.xml").length ≤
      optsC7w.maxUrls :=
  ⟨by decide,
    (sitemap_maxurls_amended optsC7w netC7 pxC7w noRegex 5 "https://a.test/sitemap.xml"
      (by decide)).1⟩

/-! ## Signature and clustering lemmas -/

/-- The signature ignores the finding id, so the `clustered-` id rewrite
does not change it. -/
theorem generateSignature_id_irrelevant (hash : String → String) (f : Finding) (x : String) :
    generateSignature hash { f with id := x } = generateSignature hash f := rfl

theorem deduplicateFindings_pair (hash : String → String) (f1 f2 : Finding)
    (h : generateSignature hash f1 = generateSignature hash f2) :
    deduplicateFindings hash [f1, f2] =
      [{ toFinding := { f1 with id := "clustered-" ++ f1.id },
         affectedPages := dedupKeepFirst [f1.pageUrl, f2.pageUrl],
         occurrenceCount := 2, representativeUrl := f1.pageUrl }] := by
  simp only [deduplicateFindings, groupsOf, List.foldl_cons, List.foldl_nil, insertGroup,
    ← h, if_pos, List.map_cons, List.map_nil, stableSort, insertSorted, mkCluster,
    List.headI, List.length_cons, List.length_nil]
  rfl

theorem normalizedSelector_unknown (f : Finding) (h : noUsableSelector f) :
    normalizedSelector f = "unknown" := by
  rcases h with h | ⟨s, hs, hp⟩
  · simp [normalizedSelector, h]
  · simp [normalizedSelector, hs, hp]

/-- C8: two findings with the same (non-empty) ruleId and viewport, whose
selectors are `.product-card:nth-child(2) > .title` versus
`.product-card:nth-child(7) > .title` and whose pageUrls are
`/product/12` versus `/product/99` on the same host, get the same
signature, and `deduplicateFindings` merges them into a single cluster
with `occurrenceCount = 2`. -/
theorem signature_merges_instances (hash : String → String) (f1 f2 : Finding) (r : String)
    (hr : r ≠ "") (h1 : f1.ruleId = some r) (h2 : f2.ruleId = some r)
    (hv : f1.viewport = f2.viewport)
    (hs1 : f1.evidence.selectors = [".product-card:nth-child(2) > .title"])
    (hs2 : f2.evidence.selectors = [".product-card:nth-child(7) > .title"])
    (hu1 : f1.pageUrl = "https://shop.example.com/product/12")
    (hu2 : f2.pageUrl = "https://shop.example.com/product/99") :
    generateSignature hash f1 = generateSignature hash f2 ∧
    ∃ c, deduplicateFindings hash [f1, f2] = [c] ∧ c.occurrenceCount = 2 := by
  have hr1 : ruleKey f1 = r := by simp [ruleKey, h1, hr]
  have hr2 : ruleKey f2 = r := by simp [ruleKey, h2, hr]
  have hn1 : normalizedSelector f1 = ".product-card > .title" := by
    simp only [normalizedSelector, hs1]
    decide
  have hn2 : normalizedSelector f2 = ".product-card > .title" := by
    simp only [normalizedSelector, hs2]
    decide
  have hp1 : extractUrlPattern f1.pageUrl = "shop.example.com/product/:id" := by
    rw [hu1]; decide
  have hp2 : extractUrlPattern f2.pageUrl = "shop.example.com/product/:id" := by
    rw [hu2]; decide
  have hsig : generateSignature hash f1 = generateSignature hash f2 := by
    unfold generateSignature signatureBase
    rw [hr1, hr2, hn1, hn2, hp1, hp2, hv]
  exact ⟨hsig, ⟨_, deduplicateFindings_pair hash f1 f2 hsig, rfl⟩⟩

/-- Witness for C8 at two fully concrete findings. -/
theorem signature_merges_instances_witness :
    ("label-missing" : String) ≠ "" ∧
    (generateSignature id findC8a = generateSignature id findC8b ∧
      ∃ c, deduplicateFindings id [findC8a, findC8b] = [c] ∧ c.occurrenceCount = 2) :=
  ⟨by decide,
    signature_merges_instances id findC8a findC8b "label-missing" (by decide)
      rfl rfl rfl rfl rfl rfl rfl⟩

/-- C10: `generateSignature` is total on every finding — an empty
selector list, or a first selector that normalises to the empty string,
falls back to the `'unknown'` placeholder — and two findings with no
usable selector but equal resolved ruleId/tool, viewport, and normalized
URL pattern get the same signature and are merged into one cluster. -/
theorem signature_total_unknown_selector (hash : String → String) (f1 f2 : Finding) :
    (f1.evidence.selectors = [] → normalizedSelector f1 = "unknown") ∧
    (∀ s, f1.evidence.selectors.head? = some s → normalizeSelectorPipeline s = "" →
      normalizedSelector f1 = "unknown") ∧
    (noUsableSelector f1 → noUsableSelector f2 → ruleKey f1 = ruleKey f2 →
      f1.viewport = f2.viewport →
      extractUrlPattern f1.pageUrl = extractUrlPattern f2.pageUrl →
      generateSignature hash f1 = generateSignature hash f2 ∧
      ∃ c, deduplicateFindings hash [f1, f2] = [c] ∧ c.occurrenceCount = 2) := by
  refine ⟨?_, ?_, ?_⟩
  · intro h
    exact normalizedSelector_unknown f1 (Or.inl h)
  · intro s hs hp
    exact normalizedSelector_unknown f1 (Or.inr ⟨s, hs, hp⟩)
  · intro hn1 hn2 hrk hv hpat
    have hsig : generateSignature hash f1 = generateSignature hash f2 := by
      unfold generateSignature signatureBase
      rw [normalizedSelector_unknown f1 hn1, normalizedSelector_unknown f2 hn2, hrk, hv, hpat]
    exact ⟨hsig, ⟨_, deduplicateFindings_pair hash f1 f2 hsig, rfl⟩⟩

/-- Witness for C10: a finding with no selectors and one whose selector
normalises to the empty string merge into one cluster. -/
theorem signature_total_unknown_selector_witness :
    noUsableSelector findC10a ∧ noUsableSelector findC10b ∧
    (generateSignature id findC10a = generateSignature id findC10b ∧
      ∃ c, deduplicateFindings id [findC10a, findC10b] = [c] ∧ c.occurrenceCount = 2) :=
  ⟨Or.inl rfl, Or.inr ⟨":nth-child(3)", rfl, by decide⟩,
    (signature_total_unknown_selector id findC10a findC10b).2.2 (Or.inl rfl)
      (Or.inr ⟨":nth-child(3)", rfl, by decide⟩) rfl rfl rfl⟩

/-! ## Grouping invariant for C9 -/

theorem insertSorted_perm (le : α → α → Bool) (x : α) :
    ∀ l : List α, (insertSorted le x l).Perm (x :: l) := by
  intro l
  induction l with
  | nil => exact List.Perm.refl _
  | cons y ys ih =>
    simp only [insertSorted]
    split
    · exact List.Perm.refl _
    · exact (List.Perm.cons y ih).trans (List.Perm.swap x y ys)

theorem stableSort_perm (le : α → α → Bool) : ∀ l : List α, (stableSort le l).Perm l := by
  intro l
  induction l with
  | nil => exact List.Perm.refl _
  | cons x xs ih =>
    exact (insertSorted_perm le x (stableSort le xs)).trans (List.Perm.cons x ih)

theorem sigKeys_insertGroup (sig : String) (f : Finding) :
    ∀ m, sigKeys (insertGroup sig f m) =
      if sig ∈ sigKeys m then sigKeys m else sigKeys m ++ [sig] := by
  intro m
  induction m with
  | nil => simp [insertGroup, sigKeys]
  | cons p rest ih =>
    obtain ⟨k, g⟩ := p
    by_cases hk : k = sig
    · subst hk
      simp [insertGroup, sigKeys]
    · simp only [insertGroup, if_neg hk, sigKeys, List.map_cons] at ih ⊢
      rw [ih]
      by_cases hmem : sig ∈ List.map Prod.fst rest
      · simp [hmem, Ne.symm hk]
      · simp [hmem, Ne.symm hk]

theorem mem_insertGroup (sig : String) (f : Finding) :
    ∀ (m : List (String × List Finding)), (sigKeys m).Nodup →
      ∀ p : String × List Finding, p ∈ insertGroup sig f m →
      (p.1 ≠ sig ∧ p ∈ m) ∨
      (p.1 = sig ∧ ((sig ∉ sigKeys m ∧ p = (sig, [f])) ∨
        ∃ g, (sig, g) ∈ m ∧ p = (sig, g ++ [f]))) := by
  intro m
  induction m with
  | nil =>
    intro _ p hp
    simp only [insertGroup, List.mem_singleton] at hp
    subst hp
    exact Or.inr ⟨rfl, Or.inl ⟨by simp [sigKeys], rfl⟩⟩
  | cons q rest ih =>
    intro hnd p hp
    obtain ⟨k, g⟩ := q
    have hnd2 : (k :: List.map Prod.fst rest).Nodup := by
      simpa only [sigKeys, List.map_cons] using hnd
    have hndc := List.nodup_cons.mp hnd2
    simp only [insertGroup] at hp
    by_cases hk : k = sig
    · subst hk
      rw [if_pos rfl] at hp
      rcases List.mem_cons.mp hp with rfl | hp
      · exact Or.inr ⟨rfl, Or.inr ⟨g, List.mem_cons_self _ _, rfl⟩⟩
      · have hp1 : p.1 ≠ k := fun hq => hndc.1 (hq ▸ List.mem_map_of_mem Prod.fst hp)
        exact Or.inl ⟨hp1, List.mem_cons_of_mem _ hp⟩
    · rw [if_neg hk] at hp
      rcases List.mem_cons.mp hp with rfl | hp
      · exact Or.inl ⟨hk, List.mem_cons_self _ _⟩
      · rcases ih hndc.2 p hp with ⟨h1, h2⟩ | ⟨h1, h2⟩
        · exact Or.inl ⟨h1, List.mem_cons_of_mem _ h2⟩
        · refine Or.inr ⟨h1, ?_⟩
          rcases h2 with ⟨hnm, hpe⟩ | ⟨g2, hg2, hpe⟩
          · refine Or.inl ⟨?_, hpe⟩
            simp only [sigKeys, List.map_cons, List.mem_cons]
            rintro (h | h)
            · exact hk h.symm
            · exact hnm (by simpa [sigKeys] using h)
          · exact Or.inr ⟨g2, List.mem_cons_of_mem _ hg2, hpe⟩

theorem goodMap_insert (hash : String → String) (fs : List Finding) (f : Finding)
    (m : List (String × List Finding)) (h : GoodMap hash fs m) :
    GoodMap hash (fs ++ [f]) (insertGroup (generateSignature hash f) f m) := by
  obtain ⟨hnd, hgrp, hcomp⟩ := h
  refine ⟨?_, ?_, ?_⟩
  · rw [sigKeys_insertGroup]
    split
    · exact hnd
    · next hmem =>
      refine List.nodup_append.mpr ⟨hnd, List.nodup_singleton _, ?_⟩
      intro a ha hb
      rw [List.mem_singleton] at hb
      exact hmem (hb ▸ ha)
  · intro p hp
    rcases mem_insertGroup _ f m hnd p hp with ⟨hne, hpm⟩ | ⟨heq, hcase⟩
    · have hg := hgrp p hpm
      refine ⟨?_, hg.2⟩
      rw [hg.1, List.filter_append]
      have : List.filter (fun f' => generateSignature hash f' = p.1) [f] = [] := by
        simp [Ne.symm hne]
      rw [this, List.append_nil]
    · rcases hcase with ⟨hnm, hpe⟩ | ⟨g, hgm, hpe⟩
      · subst hpe
        refine ⟨?_, by simp⟩
        have hfs : fs.filter (fun f' => generateSignature hash f' =
            generateSignature hash f) = [] := by
          refine List.filter_eq_nil_iff.mpr ?_
          intro f' hf' hsig
          exact hnm ((of_decide_eq_true hsig) ▸ hcomp f' hf')
        rw [List.filter_append, hfs, List.nil_append]
        simp
      · subst hpe
        have hg := hgrp (generateSignature hash f, g) hgm
        refine ⟨?_, by simp⟩
        rw [List.filter_append]
        have h1 : List.filter (fun f' => generateSignature hash f' =
            generateSignature hash f) [f] = [f] := by simp
        have h2 := hg.1
        simp only at h2
        rw [h1, ← h2]
  · intro f' hf'
    rw [sigKeys_insertGroup]
    rcases List.mem_append.mp hf' with hf' | hf'
    · have := hcomp f' hf'
      split
      · exact this
      · exact List.mem_append_left _ this
    · rw [List.mem_singleton] at hf'
      subst hf'
      split
      · next hmem => exact hmem
      · exact List.mem_append_right _ (List.mem_singleton_self _)

theorem groupsOf_append (hash : String → String) (fs : List Finding) (f : Finding) :
    groupsOf hash (fs ++ [f]) = insertGroup (generateSignature hash f) f (groupsOf hash fs) := by
  simp [groupsOf, List.foldl_append]

theorem goodMap_groupsOf (hash : String → String) :
    ∀ fs : List Finding, GoodMap hash fs (groupsOf hash fs) := by
  intro fs
  induction fs using List.reverseRecOn with
  | nil =>
    refine ⟨List.nodup_nil, ?_, ?_⟩
    · intro p hp; cases hp
    · intro f hf; cases hf
  | append_singleton fs f ih =>
    rw [groupsOf_append]
    exact goodMap_insert hash fs f _ ih

/-- C9: every cluster's `occurrenceCount` equals the number of raw
findings sharing the cluster's signature, and its `affectedPages` is the
first-occurrence deduplication of those findings' pageUrls (which can be
strictly smaller than `occurrenceCount` when a page recurs). -/
theorem cluster_counts_correct (hash : String → String) (fs : List Finding)
    (c : ClusteredFinding) (hc : c ∈ deduplicateFindings hash fs) :
    c.occurrenceCount =
      (fs.filter fun f =>
        generateSignature hash f = generateSignature hash c.toFinding).length ∧
    c.affectedPages = dedupKeepFirst
      ((fs.filter fun f =>
        generateSignature hash f = generateSignature hash c.toFinding).map (·.pageUrl)) := by
  rw [deduplicateFindings] at hc
  have hc2 : c ∈ (groupsOf hash fs).map fun p => mkCluster p.2 :=
    (stableSort_perm clusterLe _).mem_iff.mp hc
  rcases List.mem_map.mp hc2 with ⟨p, hpm, hpc⟩
  obtain ⟨hnd, hgrp, _⟩ := goodMap_groupsOf hash fs
  have hg := hgrp p hpm
  obtain ⟨rep, tl, hrep⟩ : ∃ rep tl, p.2 = rep :: tl := by
    cases hg2 : p.2 with
    | nil => exact absurd hg2 hg.2
    | cons a b => exact ⟨a, b, rfl⟩
  have hrepmem : rep ∈ p.2 := hrep ▸ List.mem_cons_self _ _
  have hsigrep : generateSignature hash rep = p.1 := by
    have hmem2 : rep ∈ fs.filter (fun f => generateSignature hash f = p.1) := hg.1 ▸ hrepmem
    exact of_decide_eq_true (List.mem_filter.mp hmem2).2
  have hctf : generateSignature hash c.toFinding = p.1 := by
    rw [← hpc]
    show generateSignature hash (mkCluster p.2).toFinding = p.1
    rw [hrep]
    show generateSignature hash { rep with id := "clustered-" ++ rep.id } = p.1
    rw [generateSignature_id_irrelevant]
    exact hsigrep
  have hlen : c.occurrenceCount = p.2.length := by rw [← hpc]; rfl
  have hpages : c.affectedPages = dedupKeepFirst (p.2.map (·.pageUrl)) := by rw [← hpc]; rfl
  rw [hlen, hpages]
  simp only [hctf]
  rw [← hg.1]
  exact ⟨rfl, rfl⟩

/-- Witness for C9: two findings on the same page and viewport produce
one cluster with `occurrenceCount = 2` but a single affected page. -/
theorem cluster_counts_correct_witness :
    clusterC9 ∈ deduplicateFindings id [findC9a, findC9b] ∧
    (clusterC9.occurrenceCount =
      (List.filter (fun f =>
        generateSignature id f = generateSignature id clusterC9.toFinding)
        [findC9a, findC9b]).length ∧
     clusterC9.affectedPages = dedupKeepFirst
      ((List.filter (fun f =>
        generateSignature id f = generateSignature id clusterC9.toFinding)
        [findC9a, findC9b]).map (·.pageUrl))) :=
  ⟨by decide, cluster_counts_correct id [findC9a, findC9b] clusterC9 (by decide)⟩
